import Mathlib

/-!
Verification of the gifdome tournament engine (a Telegram GIF-tournament bot
written in Rust) against its natural-language specification.

The Rust sources are shallowly embedded: each database-mutating operation
becomes a pure Lean function from an explicit database/state value to a new
state value (dropping a transaction without committing is modelled by
returning the original state), chat-API side effects are recorded as values
(reply strings, stop-poll flags), and machine integers are modelled as
`Int`/`Nat` (vote counts, timestamps and indices stay far below the 32-bit
bounds on every path relevant here; where a Rust `try_into` can actually
fail, the failure branch is modelled explicitly).  Timestamps are modelled
as integers; `chrono` comparisons translate to integer comparisons.
-/

namespace Gifdome

/-- Decidable equality for `Except`, needed so that concrete runs of the
embedded fallible operations can be checked by `decide`. -/
instance {ε α : Type} [DecidableEq ε] [DecidableEq α] : DecidableEq (Except ε α) :=
  fun x y =>
    match x, y with
    | Except.ok a, Except.ok b =>
      if h : a = b then Decidable.isTrue (by rw [h])
      else Decidable.isFalse fun hh => h (Except.ok.inj hh)
    | Except.error a, Except.error b =>
      if h : a = b then Decidable.isTrue (by rw [h])
      else Decidable.isFalse fun hh => h (Except.error.inj hh)
    | Except.ok _, Except.error _ => Decidable.isFalse fun hh => Except.noConfusion hh
    | Except.error _, Except.ok _ => Decidable.isFalse fun hh => Except.noConfusion hh

/-- State of a matchup row (`matchup_state` enum). -/
inductive MatchupState where
  | not_started
  | started
  | finished
  | aborted
deriving DecidableEq, Repr

/-- State of a tournament row (`tournament_state` enum). -/
inductive TournamentState where
  | submitting
  | voting
  | finished
  | aborted
deriving DecidableEq, Repr

/-! ## Scheduler (`src/bot/src/scheduled.rs`, `run_scheduled_task`)

The scheduled task queries all matchups in state `started` (joined with their
tournament for `chat_id` and `min_votes`) and, per row, finishes the matchup
when `expires < now && votes_a != votes_b && votes_a + votes_b >= min_votes`
where `expires = started_at + duration_secs`.  A row that fails any of the
integrity checks (a `None` in a column that must be set for a started
matchup) is skipped with a log line.  The embedding processes one queried row;
the returned `Bool` records whether `stop_poll` was called for the row. -/

/-- One row of the scheduler's query: matchup columns joined with the
tournament's `chat_id` and `min_votes`. -/
structure SchedRow where
  tournament_id : String
  index : Int
  chat_id : Int
  message_id : Option Int
  duration_secs : Int
  started_at : Option Int
  votes_a : Option Int
  votes_b : Option Int
  min_votes : Option Int
  state : MatchupState
  finished_at : Option Int
deriving DecidableEq, Repr

/-- The per-row body of `run_scheduled_task`: rows are selected by
`state = 'started'`; missing columns make the task skip the row; otherwise
the matchup is set to `finished` (with `finished_at = now`) and its poll is
stopped exactly when `started_at + duration_secs < now`, the vote counts
differ and their sum reaches `min_votes`.  Returns the updated row and
whether `stop_poll` was invoked. -/
def sched_step (now : Int) (r : SchedRow) : SchedRow × Bool :=
  if r.state = MatchupState.started then
    match r.message_id, r.started_at, r.votes_a, r.votes_b, r.min_votes with
    | some _, some started_at, some votes_a, some votes_b, some min_votes =>
      if started_at + r.duration_secs < now ∧ votes_a ≠ votes_b ∧
          votes_a + votes_b ≥ min_votes then
        ({ r with state := MatchupState.finished, finished_at := some now }, true)
      else
        (r, false)
    | _, _, _, _, _ => (r, false)
  else
    (r, false)

/-- A whole scheduler tick over the queried rows (each row is processed
independently). -/
def run_scheduled_task (now : Int) (rows : List SchedRow) : List (SchedRow × Bool) :=
  rows.map (sched_step now)

/-! ## Poll-update coalescer (`src/bot/src/webhook.rs`, `handle_poll_updates`)

The coalescer drains the channel into a burst `updates`, then folds the burst
into a `HashMap<String, (u32, Poll)>` keyed by `poll.id`, replacing an entry
only when the stored `update_id` is strictly smaller, and finally invokes the
per-poll handler once per map entry.  The map is embedded as an association
list (insertion-ordered); the handler-invocation list is its value list. -/

/-- Data of a Telegram poll update relevant to the engine. -/
structure PollData where
  id : String
  is_closed : Bool
  options : List (String × Nat)
deriving DecidableEq, Repr

/-- Insertion of one `(update_id, poll)` pair into the coalescing map:
if an entry with the same `poll.id` exists it is replaced only when its
stored `update_id` is strictly smaller, otherwise the pair is appended. -/
def coalesce_insert : List (Nat × PollData) → Nat × PollData → List (Nat × PollData)
  | [], u => [u]
  | e :: rest, u =>
    if e.2.id = u.2.id then
      (if e.1 < u.1 then u else e) :: rest
    else
      e :: coalesce_insert rest u

/-- Coalescing of one drained burst: the list of `(update_id, poll)` pairs
the per-poll handler is invoked with, one per distinct `poll.id`. -/
def coalesce (updates : List (Nat × PollData)) : List (Nat × PollData) :=
  updates.foldl coalesce_insert []

/-! ## Per-poll update handler (`src/bot/src/webhook.rs`, `handle_poll_update`)

A closed poll returns `Ok(())` before the transaction is even opened.  For an
open poll the handler extracts the two option counts by matching the option
texts against the configured texts (a duplicated or missing option logs and
returns `Ok` with no write), then runs
`UPDATE matchups SET votes WHERE poll_id = $3 AND state = 'started'`;
more than one updated row is a `DbIntegrityError` (the transaction is
dropped, i.e. rolled back). -/

/-- Errors of `handle_poll_update` that the embedding distinguishes. -/
inductive HandlePollUpdateError where
  | DbIntegrityError
  | TryFromIntError
deriving DecidableEq, Repr

/-- A matchup row as seen by the poll-update write. -/
structure PollMatchupRow where
  tournament_id : String
  index : Int
  poll_id : Option String
  state : MatchupState
  votes_a : Option Int
  votes_b : Option Int
deriving DecidableEq, Repr

/-- The option-scanning loop of `handle_poll_update`: walks the poll options
accumulating the counts for option A and option B; a duplicated option text
aborts with `none` (the handler replies `Ok` without writing). -/
def extract_votes (a_text b_text : String) :
    List (String × Nat) → Option Nat → Option Nat → Option (Option Nat × Option Nat)
  | [], va, vb => some (va, vb)
  | (text, n) :: rest, va, vb =>
    if text = a_text then
      match va with
      | some _ => none
      | none => extract_votes a_text b_text rest (some n) vb
    else if text = b_text then
      match vb with
      | some _ => none
      | none => extract_votes a_text b_text rest va (some n)
    else
      extract_votes a_text b_text rest va vb

/-- The embedding of `handle_poll_update`: returns the handler result and the
database state after the call (the original rows when the transaction was
rolled back or never written). -/
def handle_poll_update (a_text b_text : String) (db : List PollMatchupRow)
    (poll : PollData) : Except HandlePollUpdateError Unit × List PollMatchupRow :=
  if poll.is_closed then
    (Except.ok (), db)
  else
    match extract_votes a_text b_text poll.options none none with
    | none => (Except.ok (), db)
    | some (some votes_a, some votes_b) =>
      if votes_a < 2 ^ 31 ∧ votes_b < 2 ^ 31 then
        let db' := db.map fun r =>
          if r.poll_id = some poll.id ∧ r.state = MatchupState.started then
            { r with votes_a := some (votes_a : Int), votes_b := some (votes_b : Int) }
          else r
        let count :=
          (db.filter fun r =>
            decide (r.poll_id = some poll.id ∧ r.state = MatchupState.started)).length
        if count > 1 then
          (Except.error HandlePollUpdateError.DbIntegrityError, db)
        else
          (Except.ok (), db')
      else
        (Except.error HandlePollUpdateError.TryFromIntError, db)
    | some _ => (Except.ok (), db)

/-! ## Seed generation (`src/bot/src/tournament.rs`, `generate_seeds`)

`generate_seeds` starts from `[0, 1]` and, for each round from `2` to
`rounds`, replaces every seed `s` by the pair `[s, new_len - 1 - s]` where
`new_len` is twice the previous length.  The only failure is the
`usize -> u32` conversion of `new_len`, which fails exactly when
`new_len > 2^32 - 1`. -/

/-- The error type of `generate_seeds`. -/
inductive GenerateSeedsError where
  | ConvertError
deriving DecidableEq, Repr

/-- The loop body of `next_seeds`: for each seed `s` of the previous round
push `s` and `new_len - s - 1`. -/
def next_seeds_aux (new_len : Nat) : List Nat → List Nat
  | [] => []
  | s :: rest => s :: (new_len - s - 1) :: next_seeds_aux new_len rest

/-- One doubling step of the seed sequence. -/
def next_seeds (previous : List Nat) : List Nat :=
  next_seeds_aux (previous.length * 2) previous

/-- The `for _ in 2..=rounds` loop of `generate_seeds`, with the number of
remaining iterations as first argument; the `new_len` conversion to `u32`
fails when `new_len ≥ 2^32`. -/
def generate_seeds_go : Nat → List Nat → Except GenerateSeedsError (List Nat)
  | 0, seeds => Except.ok seeds
  | k + 1, seeds =>
    if seeds.length * 2 < 2 ^ 32 then
      generate_seeds_go k (next_seeds seeds)
    else
      Except.error GenerateSeedsError.ConvertError

/-- The embedding of `generate_seeds`. -/
def generate_seeds (rounds : Nat) : Except GenerateSeedsError (List Nat) :=
  generate_seeds_go (rounds - 1) [0, 1]

/-! ## Bracket construction (`src/bot/src/tournament.rs`, `create_bracket`)

After loading and weighting the submissions (grouped by their
duplicate-collapsed animation id, shuffled within each weight bucket — the
randomized ordering enters the embedding as the already-flattened list
`sorted_submissions`), `create_bracket` emits `2^rounds / 2` first-round
matchups populated via the seed sequence, then placeholder matchups for
rounds `rounds-1` down to `1`, with a running dense `index` counter, and a
`duration_secs` looked up in `config.tournament.round_lengths_secs[round-1]`.
Each matchup row is inserted in state `not_started`. -/

/-- The error type of `create_bracket` (constructors relevant to the
embedded logic). -/
inductive CreateBracketError where
  | ConvertError
  | NotEnoughSubmissions (actual : Nat) (needed : Nat)
  | UnexpectedIndex
deriving DecidableEq, Repr

/-- A matchup row as built by `create_bracket` (inserted with
`state = 'not_started'`). -/
structure BracketMatchup where
  index : Nat
  round : Nat
  animation_a_id : Option String
  animation_b_id : Option String
  duration_secs : Nat
deriving DecidableEq, Repr

instance : Inhabited BracketMatchup :=
  ⟨{ index := 0, round := 0, animation_a_id := none, animation_b_id := none,
     duration_secs := 0 }⟩

/-- The first-round loop of `create_bracket`: `fuel` iterations remain, `i`
is the loop counter and `index` the running matchup index; each iteration
looks up the seed pair `(seeds[2i], seeds[2i+1])`, the corresponding
submissions, and the round length for the first round. -/
def bracket_first_round (seeds : List Nat) (sorted_submissions : List String)
    (round_lengths_secs : List Nat) (rounds : Nat) :
    Nat → Nat → Nat → Except CreateBracketError (List BracketMatchup)
  | 0, _, _ => Except.ok []
  | fuel + 1, i, index =>
    match seeds[i * 2]? with
    | none => Except.error CreateBracketError.UnexpectedIndex
    | some seed1 =>
      match seeds[i * 2 + 1]? with
      | none => Except.error CreateBracketError.UnexpectedIndex
      | some seed2 =>
        match sorted_submissions[seed1]? with
        | none => Except.error CreateBracketError.UnexpectedIndex
        | some a =>
          match sorted_submissions[seed2]? with
          | none => Except.error CreateBracketError.UnexpectedIndex
          | some b =>
            match round_lengths_secs[rounds - 1]? with
            | none => Except.error CreateBracketError.UnexpectedIndex
            | some d =>
              match bracket_first_round seeds sorted_submissions round_lengths_secs
                  rounds fuel (i + 1) (index + 1) with
              | Except.error e => Except.error e
              | Except.ok rest =>
                Except.ok ({ index := index, round := rounds,
                             animation_a_id := some a, animation_b_id := some b,
                             duration_secs := d } :: rest)

/-- The inner placeholder loop of `create_bracket`: emit `count` placeholder
matchups for round `round`, starting at matchup index `index`. -/
def bracket_placeholders (round_lengths_secs : List Nat) (round : Nat) :
    Nat → Nat → Except CreateBracketError (List BracketMatchup)
  | 0, _ => Except.ok []
  | count + 1, index =>
    match round_lengths_secs[round - 1]? with
    | none => Except.error CreateBracketError.UnexpectedIndex
    | some d =>
      match bracket_placeholders round_lengths_secs round count (index + 1) with
      | Except.error e => Except.error e
      | Except.ok rest =>
        Except.ok ({ index := index, round := round, animation_a_id := none,
                     animation_b_id := none, duration_secs := d } :: rest)

/-- The `for round in (1..rounds).rev()` loop of `create_bracket`: emit the
placeholder matchups of rounds `round`, `round - 1`, …, `1`. -/
def bracket_rest (round_lengths_secs : List Nat) :
    Nat → Nat → Except CreateBracketError (List BracketMatchup)
  | 0, _ => Except.ok []
  | round + 1, index =>
    match bracket_placeholders round_lengths_secs (round + 1) (2 ^ round) index with
    | Except.error e => Except.error e
    | Except.ok block =>
      match bracket_rest round_lengths_secs round (index + 2 ^ round) with
      | Except.error e => Except.error e
      | Except.ok rest => Except.ok (block ++ rest)

/-- The embedding of `create_bracket`: the matchup rows it inserts, as a
list.  `sorted_submissions` is the flattened weight-sorted (bucket-shuffled)
submission list; the length check against `2^rounds` mirrors the
`NotEnoughSubmissions` refusal. -/
def create_bracket (rounds : Nat) (sorted_submissions : List String)
    (round_lengths_secs : List Nat) : Except CreateBracketError (List BracketMatchup) :=
  if sorted_submissions.length < 2 ^ rounds then
    Except.error (CreateBracketError.NotEnoughSubmissions
      sorted_submissions.length (2 ^ rounds))
  else
    match generate_seeds rounds with
    | Except.error _ => Except.error CreateBracketError.ConvertError
    | Except.ok seeds =>
      match bracket_first_round seeds sorted_submissions round_lengths_secs rounds
          (2 ^ rounds / 2) 0 0 with
      | Except.error e => Except.error e
      | Except.ok first =>
        match bracket_rest round_lengths_secs (rounds - 1) (2 ^ rounds / 2) with
        | Except.error e => Except.error e
        | Except.ok rest => Except.ok (first ++ rest)

/-! ## Round promotion (`src/bot/src/tournament.rs`,
`calculate_new_round_matchups`)

Invoked on the first transition into round `round_number`: computes
`start_index = Σ_{k=round_number}^{total_rounds-1} 2^k`, queries the previous
round's matchups (indices `start_index - 2^round_number` through
`start_index - 1`), and for each new-round index fills the two animation
slots with the winners of the feeder matchups located through the
decrementing offset `x` (starting at `2^round_number`).  A feeder with equal
votes is a database-integrity error. -/

/-- Errors of `calculate_new_round_matchups` relevant to the embedding; the
equal-votes case is the `DbIntegrityError("matchup has equal votes")`
branch. -/
inductive CalculateNewRoundMatchupsError where
  | DbIntegrityError (msg : String)
  | MissingMatchup (index : Nat)
deriving DecidableEq, Repr

/-- A previous-round matchup as consumed by round promotion, after the
not-null integrity checks on its columns. -/
structure FeederMatchup where
  animation_a_id : String
  animation_b_id : String
  animation_a_votes : Int
  animation_b_votes : Int
deriving DecidableEq, Repr

/-- Winner selection of one feeder matchup, mirroring the source's `match`
on `animation_a_votes.cmp(&animation_b_votes)`: `Greater` picks side A,
`Less` picks side B and equality is the integrity error. -/
def feeder_winner (m : FeederMatchup) : Option String :=
  if m.animation_a_votes > m.animation_b_votes then some m.animation_a_id
  else if m.animation_a_votes < m.animation_b_votes then some m.animation_b_id
  else none

/-- The higher-vote side of a matchup (the winner, when the votes are not
tied). -/
def higher_vote_side (m : FeederMatchup) : String :=
  if m.animation_a_votes > m.animation_b_votes then m.animation_a_id
  else m.animation_b_id

/-- The `for index in start_index..end_index` loop: `fuel` iterations remain,
`index` is the current new-round index and `x` the current offset; each
iteration reads the feeders at `index - x` and `index - x + 1` and records
the update `(index, winner1, winner2)`. -/
def calc_loop (matchups : Nat → Option FeederMatchup) :
    Nat → Nat → Nat →
    Except CalculateNewRoundMatchupsError (List (Nat × String × String))
  | 0, _, _ => Except.ok []
  | fuel + 1, index, x =>
    match matchups (index - x) with
    | none => Except.error (CalculateNewRoundMatchupsError.MissingMatchup (index - x))
    | some m1 =>
      match feeder_winner m1 with
      | none => Except.error
          (CalculateNewRoundMatchupsError.DbIntegrityError "matchup has equal votes")
      | some w1 =>
        match matchups (index - x + 1) with
        | none =>
          Except.error (CalculateNewRoundMatchupsError.MissingMatchup (index - x + 1))
        | some m2 =>
          match feeder_winner m2 with
          | none => Except.error
              (CalculateNewRoundMatchupsError.DbIntegrityError "matchup has equal votes")
          | some w2 =>
            match calc_loop matchups fuel (index + 1) (x - 1) with
            | Except.error e => Except.error e
            | Except.ok rest => Except.ok ((index, w1, w2) :: rest)

/-- The literal `start_index` computation
`(round_number..total_rounds).map(|r| 2u32.pow(r)).sum()`. -/
def calc_start_index (total_rounds round_number : Nat) : Nat :=
  ((List.range' round_number (total_rounds - round_number)).map fun k => 2 ^ k).sum

/-- The embedding of `calculate_new_round_matchups`: `matchups` is the keyed
view of the previous-round query result; returns the ordered list of
`(index, animation_a_id, animation_b_id)` updates applied to the new round's
rows. -/
def calculate_new_round_matchups (matchups : Nat → Option FeederMatchup)
    (total_rounds round_number : Nat) :
    Except CalculateNewRoundMatchupsError (List (Nat × String × String)) :=
  let start_index := calc_start_index total_rounds round_number
  calc_loop matchups (2 ^ (round_number - 1)) start_index (2 ^ round_number)

/-! ## Tournament finish and the advancer branch
(`src/bot/src/tournament.rs`, `finish_tournament` and `advance_matchup`)

`advance_matchup` loads the ended matchup and the candidate at
`ended_index + 1`; after the duplicate-row and null checks it rejects equal
votes, and when no matchup exists at `ended_index + 1` it calls
`finish_tournament`, which sets the tournament row to `finished`, re-reads
the ended matchup, picks the side with more votes as the final winner, loads
the winner's file identifier, sends and pins the winning animation, and
reverts the chat command menu.  The embedding returns the updated database
together with the winner's animation id (the animation that is sent and
pinned). -/

/-- Errors of `finish_tournament`. -/
inductive FinishTournamentError where
  | DbIntegrityError
  | EqualVotes
  | MissingAnimationId
  | MissingVotes
  | QueryAnimationFailed
  | QueryMatchupFailed
deriving DecidableEq, Repr

/-- Errors of `advance_matchup` relevant to the embedded branch. -/
inductive AdvanceMatchupError where
  | DbIntegrityError
  | EqualVotes
  | FinishTournamentError (e : FinishTournamentError)
  | MatchupNotFound
  | NullVotes
deriving DecidableEq, Repr

/-- A tournament row as seen by the advancer. -/
structure AdvTournamentRow where
  id : String
  chat_id : Int
  rounds : Option Int
  state : TournamentState
deriving DecidableEq, Repr

/-- A matchup row as seen by the advancer and by `finish_tournament`. -/
structure AdvMatchupRow where
  tournament_id : String
  index : Int
  round : Int
  animation_a_id : Option String
  animation_b_id : Option String
  animation_a_votes : Option Int
  animation_b_votes : Option Int
deriving DecidableEq, Repr

/-- The database slice consumed by the advancer. -/
structure AdvDb where
  tournaments : List AdvTournamentRow
  matchups : List AdvMatchupRow
  animations : List (String × String)
deriving DecidableEq, Repr

/-- The embedding of `finish_tournament`: marks the tournament `finished`,
reads the matchup at `ended_matchup_index`, resolves the winner by the
source's `match` on `votes_a.cmp(&votes_b)` (`Less` picks side B, `Greater`
side A, equality is `EqualVotes`, mirrored here as an if-chain), and looks
up the winner's file identifier before sending
and pinning it.  Returns the updated database and the winner animation id. -/
def finish_tournament (db : AdvDb) (tournament_id : String)
    (ended_matchup_index : Int) : Except FinishTournamentError (AdvDb × String) :=
  let new_tournaments := db.tournaments.map fun t =>
    if t.id = tournament_id then { t with state := TournamentState.finished } else t
  let count := (db.tournaments.filter fun t => decide (t.id = tournament_id)).length
  if count ≠ 1 then
    Except.error FinishTournamentError.DbIntegrityError
  else
    match db.matchups.filter fun m =>
        decide (m.tournament_id = tournament_id ∧ m.index = ended_matchup_index) with
    | [m] =>
      match m.animation_a_votes with
      | none => Except.error FinishTournamentError.MissingVotes
      | some votes_a =>
        match m.animation_b_votes with
        | none => Except.error FinishTournamentError.MissingVotes
        | some votes_b =>
          match (if votes_a < votes_b then
              match m.animation_b_id with
              | some id => Except.ok id
              | none =>
                (Except.error FinishTournamentError.MissingAnimationId :
                  Except FinishTournamentError String)
            else if votes_a = votes_b then
              Except.error FinishTournamentError.EqualVotes
            else
              match m.animation_a_id with
              | some id => Except.ok id
              | none => Except.error FinishTournamentError.MissingAnimationId) with
          | Except.error e => Except.error e
          | Except.ok winner_id =>
            match db.animations.filter fun a => decide (a.1 = winner_id) with
            | [_] =>
              Except.ok ({ db with tournaments := new_tournaments }, winner_id)
            | _ => Except.error FinishTournamentError.QueryAnimationFailed
    | _ => Except.error FinishTournamentError.QueryMatchupFailed

/-- The outcome of the embedded prefix of `advance_matchup`:
either the tournament was finished (with the resulting database and winner),
or control proceeds to the announce/poll-send path for a next matchup of the
given round (that continuation is outside the scope of the properties proved
here). -/
inductive AdvanceStep where
  | finishedTournament (db : AdvDb) (winner_id : String)
  | proceed (new_matchup_round : Int)
deriving DecidableEq, Repr

/-- The embedding of `advance_matchup` up to (and including) the
finish-tournament branch: queries the matchups at `ended_matchup_index` and
`ended_matchup_index + 1` for the tournament, performs the duplicate-row,
missing-row, null-`rounds` and equal-votes checks in source order, and when
no matchup exists at `ended_matchup_index + 1` delegates to
`finish_tournament`. -/
def advance_matchup (db : AdvDb) (tournament_id : String)
    (ended_matchup_index : Int) : Except AdvanceMatchupError AdvanceStep :=
  let ended_rows := db.matchups.filter fun m =>
    decide (m.tournament_id = tournament_id ∧ m.index = ended_matchup_index)
  let new_rows := db.matchups.filter fun m =>
    decide (m.tournament_id = tournament_id ∧ m.index = ended_matchup_index + 1)
  if ended_rows.length > 1 ∨ new_rows.length > 1 then
    Except.error AdvanceMatchupError.DbIntegrityError
  else
    match db.tournaments.filter fun t => decide (t.id = tournament_id) with
    | [] =>
      -- the join with `tournaments` yields no rows without a tournament row
      Except.error AdvanceMatchupError.MatchupNotFound
    | [tournament] =>
      match ended_rows.head? with
      | none => Except.error AdvanceMatchupError.MatchupNotFound
      | some ended =>
        match tournament.rounds with
        | none => Except.error AdvanceMatchupError.DbIntegrityError
        | some _ =>
          match ended.animation_a_votes, ended.animation_b_votes with
          | some votes_a, some votes_b =>
            if votes_a = votes_b then
              Except.error AdvanceMatchupError.EqualVotes
            else
              match new_rows.head? with
              | none =>
                match finish_tournament db tournament_id ended_matchup_index with
                | Except.error e =>
                  Except.error (AdvanceMatchupError.FinishTournamentError e)
                | Except.ok (db', winner_id) =>
                  Except.ok (AdvanceStep.finishedTournament db' winner_id)
              | some new_matchup =>
                Except.ok (AdvanceStep.proceed new_matchup.round)
          | _, _ =>
            -- `row.get` on a NULL vote column panics in the source
            Except.error AdvanceMatchupError.NullVotes
    | _ => Except.error AdvanceMatchupError.DbIntegrityError

/-- Modelled from the spec ("Identify the final winner from the last
(index 0, round 1) matchup's vote counts"): the higher-vote side of the
matchup at index `0`, read literally for comparison with the code's
`finish_tournament`, which reads the matchup at the ended index instead. -/
def final_winner_spec_index0 (db : AdvDb) (tournament_id : String) : Option String :=
  match db.matchups.filter fun m =>
      decide (m.tournament_id = tournament_id ∧ m.index = 0) with
  | [m] =>
    match m.animation_a_votes, m.animation_b_votes with
    | some votes_a, some votes_b =>
      if votes_a > votes_b then m.animation_a_id
      else if votes_a < votes_b then m.animation_b_id
      else none
    | _, _ => none
  | _ => none

/-! ## Submission handler (`src/bot/src/webhook.rs`, `handle_submission`)

The handler validates the mime type, opens a transaction, resolves the
chat's `submitting` tournament, and — for an unknown animation — saves,
thumbnails and probes the file, refusing (with a reply, and a transaction
rollback since the single `commit` at the end is never reached) when the
probed duration exceeds `config.animation.max_duration_secs`, and inserting
the animation row otherwise.  It then records the filename, upserts the
user, classifies the animation against the `duplicates` table, inserts the
submission unless it already exists, counts distinct submitters over the
similarity cluster, commits, and replies.  External effects (chat API
download, ffmpeg, ffprobe) enter the embedding as explicit outcome
parameters; replies sent before a rollback are still listed, because chat
messages are not transactional. -/

/-- Tournament row fields consumed by the submission handler. -/
structure SubTournamentRow where
  id : String
  chat_id : Int
  state : TournamentState
deriving DecidableEq, Repr

/-- Animation row fields written by the submission handler. -/
structure SubAnimationRow where
  id : String
  file_identifier : String
  width : Int
  height : Int
  mime_type : Option String
  frames : Int
  fps_num : Int
  fps_denom : Int
deriving DecidableEq, Repr

/-- One row of the `submissions` table. -/
structure SubmissionRow where
  tournament_id : String
  animation_id : String
  submitter_id : Int
deriving DecidableEq, Repr

/-- The database slice consumed by the submission handler. -/
structure SubDb where
  tournaments : List SubTournamentRow
  animations : List SubAnimationRow
  animation_filenames : List (String × String)
  users : List (Int × Option String)
  duplicates : List (String × String)
  submissions : List SubmissionRow
deriving DecidableEq, Repr

/-- Relevant fields of a Telegram `Animation` payload. -/
structure AnimationMsg where
  file_unique_id : String
  file_id : String
  mime_type : Option String
  file_name : Option String
deriving DecidableEq, Repr

/-- Relevant fields of the enclosing Telegram message. -/
structure ChatMsg where
  chat_id : Int
  message_id : Int
  from_user : Option (Int × Option String)
deriving DecidableEq, Repr

/-- Probed animation parameters (`AnimationParams`). -/
structure AnimationParams where
  width : Int
  height : Int
  fps_num : Int
  fps_denom : Int
  frames : Int
deriving DecidableEq, Repr

/-- Outcome of `save_animation` as an input to the embedding. -/
inductive SaveResult where
  | ok
  | tooLarge (size : Nat)
  | otherError
deriving DecidableEq, Repr

/-- Outcome of `generate_thumbnail` as an input to the embedding. -/
inductive ThumbResult where
  | ok
  | err
deriving DecidableEq, Repr

/-- Outcome of `get_animation_params` as an input to the embedding. -/
inductive ProbeResult where
  | ok (params : AnimationParams)
  | err
deriving DecidableEq, Repr

/-- Configuration consumed by the submission handler. -/
structure SubConfig where
  allowed_mime_types : List String
  max_duration_secs : Nat
deriving DecidableEq, Repr

/-- Errors of `handle_submission` relevant to the embedding. -/
inductive HandleSubmissionError where
  | DbError
  | DbIntegrityError
  | GenerateThumbnailError
  | GetAnimationParamsError
  | SaveAnimationError
deriving DecidableEq, Repr

/-- Result of a submission-handler call: the database state after the call
(the original state when the transaction was rolled back), the replies sent
to the chat in order, and the handler's return value. -/
structure SubOutcome where
  db : SubDb
  replies : List String
  result : Except HandleSubmissionError Unit
deriving DecidableEq, Repr

/-- The `params.duration() > config.animation.max_duration_secs` test of the
source, where `duration = frames as f64 * fps_denom as f64 / fps_num as f64`.
The embedding compares the exact rational value, which agrees with the `f64`
comparison whenever `|frames * fps_denom|` and `max * fps_num` are exactly
representable (all realistic probed values are far below `2^53`). -/
def duration_exceeds (p : AnimationParams) (max_duration_secs : Nat) : Prop :=
  if p.fps_num > 0 then
    p.frames * p.fps_denom > (max_duration_secs : Int) * p.fps_num
  else if p.fps_num < 0 then
    p.frames * p.fps_denom < (max_duration_secs : Int) * p.fps_num
  else
    p.frames * p.fps_denom > 0

instance (p : AnimationParams) (n : Nat) : Decidable (duration_exceeds p n) := by
  unfold duration_exceeds
  split
  · exact inferInstance
  · split <;> exact inferInstance

/-- The spelled-out number in the submission-count replies: `1` is "once",
`2` is "twice" and anything else is "N times". -/
def times_text (n : Int) : String :=
  if n = 1 then "once"
  else if n = 2 then "twice"
  else toString n ++ " times"

/-- Second half of `handle_submission`, from the filename insert to the
commit: runs inside the open transaction on `db1` (the state including the
possibly inserted animation row); `db0` is the state to which a rollback
reverts. -/
def handle_submission_rest (msg : ChatMsg) (anim : AnimationMsg) (db0 : SubDb)
    (db1 : SubDb) (tournament_id : String) : SubOutcome :=
  let db2 :=
    match anim.file_name with
    | none => db1
    | some filename =>
      if (anim.file_unique_id, filename) ∈ db1.animation_filenames then db1
      else { db1 with
             animation_filenames :=
               db1.animation_filenames ++ [(anim.file_unique_id, filename)] }
  match msg.from_user with
  | none =>
    -- a channel post has no sender: return `Ok` and drop the transaction
    { db := db0, replies := [], result := Except.ok () }
  | some (user_id, username) =>
    let db3 := { db2 with
                 users :=
                   if db2.users.any fun u => decide (u.1 = user_id) then
                     db2.users.map fun u =>
                       if u.1 = user_id then (user_id, username) else u
                   else
                     db2.users ++ [(user_id, username)] }
    let is_primary := db3.duplicates.any fun d => decide (d.1 = anim.file_unique_id)
    let is_duplicate := db3.duplicates.any fun d => decide (d.2 = anim.file_unique_id)
    if is_primary && is_duplicate then
      { db := db0, replies := [], result := Except.error HandleSubmissionError.DbIntegrityError }
    else
      let primaries :=
        (db3.duplicates.filter fun d => decide (d.2 = anim.file_unique_id)).map fun d => d.1
      if is_duplicate && primaries.length ≠ 1 then
        -- a scalar subquery returning several rows is a database error
        { db := db0, replies := [], result := Except.error HandleSubmissionError.DbError }
      else
        let similar : List String :=
          if is_primary then
            (db3.duplicates.filter fun d => decide (d.1 = anim.file_unique_id)).map
              fun d => d.2
          else if is_duplicate then
            match primaries.head? with
            | some p =>
              ((db3.duplicates.filter fun d =>
                  decide (d.1 = p ∧ d.2 ≠ anim.file_unique_id)).map fun d => d.2) ++ [p]
            | none => []
          else
            []
        let already_submitted := db3.submissions.any fun s =>
          decide (s.tournament_id = tournament_id ∧
            s.animation_id = anim.file_unique_id ∧ s.submitter_id = user_id)
        let already_submitted_similar :=
          !similar.isEmpty && db3.submissions.any fun s =>
            decide (s.tournament_id = tournament_id ∧ s.animation_id ∈ similar ∧
              s.submitter_id = user_id)
        let db4 :=
          if already_submitted then db3
          else { db3 with
                 submissions :=
                   db3.submissions ++
                     [{ tournament_id := tournament_id,
                        animation_id := anim.file_unique_id,
                        submitter_id := user_id }] }
        let submission_count : Int :=
          (((db4.submissions.filter fun s =>
              decide (s.tournament_id = tournament_id ∧
                (s.animation_id = anim.file_unique_id ∨ s.animation_id ∈ similar))).map
                  fun s => s.submitter_id).dedup).length
        let reply :=
          if already_submitted then
            "You have already sent this GIF. It has been sent " ++
              times_text submission_count ++ "."
          else if already_submitted_similar then
            "You have already sent a similar GIF. It has been sent " ++
              times_text submission_count ++ "."
          else if submission_count = 1 then
            "Thanks for the GIF, you are the first to send it! (^▽^)/"
          else if submission_count = 2 then
            "Your vote has been counted. This GIF has now been sent twice."
          else
            "Your vote has been counted. This GIF has now been sent " ++
              toString submission_count ++ " times."
        { db := db4, replies := [reply], result := Except.ok () }

/-- The embedding of `handle_submission`.  The outcomes of the external
steps (`save_animation`, `generate_thumbnail`, `get_animation_params`) are
passed in; they are only consulted when the animation is not yet in the
`animations` table, exactly as in the source. -/
def handle_submission (cfg : SubConfig) (msg : ChatMsg) (anim : AnimationMsg)
    (save_result : SaveResult) (thumb_result : ThumbResult)
    (probe_result : ProbeResult) (db : SubDb) : SubOutcome :=
  match anim.mime_type with
  | none =>
    { db := db, replies := ["I couldn’t determine the file type of that GIF."],
      result := Except.ok () }
  | some mime_type =>
    if mime_type ∉ cfg.allowed_mime_types then
      { db := db,
        replies := ["I’m not designed to handle GIFs of that file type (" ++
          mime_type ++ ")."],
        result := Except.ok () }
    else
      match db.tournaments.filter fun t =>
          decide (t.chat_id = msg.chat_id ∧ t.state = TournamentState.submitting) with
      | [] => { db := db, replies := [], result := Except.ok () }
      | [tournament] =>
        let animation_count :=
          (db.animations.filter fun a => decide (a.id = anim.file_unique_id)).length
        if animation_count ≥ 2 then
          { db := db, replies := [],
            result := Except.error HandleSubmissionError.DbIntegrityError }
        else if animation_count = 1 then
          handle_submission_rest msg anim db db tournament.id
        else
          match save_result with
          | SaveResult.tooLarge _ =>
            { db := db, replies := ["The file size is too big ＼(〇ｏ)／"],
              result := Except.ok () }
          | SaveResult.otherError =>
            { db := db, replies := [],
              result := Except.error HandleSubmissionError.SaveAnimationError }
          | SaveResult.ok =>
            match thumb_result with
            | ThumbResult.err =>
              { db := db, replies := [],
                result := Except.error HandleSubmissionError.GenerateThumbnailError }
            | ThumbResult.ok =>
              match probe_result with
              | ProbeResult.err =>
                { db := db, replies := [],
                  result := Except.error HandleSubmissionError.GetAnimationParamsError }
              | ProbeResult.ok params =>
                if duration_exceeds params cfg.max_duration_secs then
                  { db := db,
                    replies := ["GIFs longer than " ++
                      toString cfg.max_duration_secs ++
                      " seconds are not accepted."],
                    result := Except.ok () }
                else
                  let db1 :=
                    { db with
                      animations := db.animations ++
                        [{ id := anim.file_unique_id,
                           file_identifier := anim.file_id,
                           width := params.width, height := params.height,
                           mime_type := anim.mime_type, frames := params.frames,
                           fps_num := params.fps_num,
                           fps_denom := params.fps_denom }] }
                  handle_submission_rest msg anim db db1 tournament.id
      | _ =>
        -- `query_opt` fails when the query returns more than one row
        { db := db, replies := [], result := Except.error HandleSubmissionError.DbError }

/-- Invariant of the coalescing fold: `acc` is the map built so far and
`processed` the burst prefix already folded in.  Every map entry comes from
the processed prefix and dominates (by `update_id`) every processed pair
with the same poll id; every processed poll id is represented; and the map
keys are distinct. -/
def CoalesceInv (processed acc : List (Nat × PollData)) : Prop :=
  (∀ e ∈ acc, e ∈ processed) ∧
  (∀ e ∈ acc, ∀ q ∈ processed, q.2.id = e.2.id → q.1 ≤ e.1) ∧
  (∀ q ∈ processed, ∃ e ∈ acc, e.2.id = q.2.id) ∧
  (acc.map fun e => e.2.id).Nodup

/-! ## Concrete instances

Concrete database states and inputs used to evaluate the embedded
operations at specific points. -/

/-- A started matchup row with votes 3 : 1, `min_votes = 1`,
`started_at = 0` and `duration_secs = 100`. -/
def sched_row_ex : SchedRow :=
  { tournament_id := "T", index := 0, chat_id := 1, message_id := some 5,
    duration_secs := 100, started_at := some 0, votes_a := some 3,
    votes_b := some 1, min_votes := some 1, state := MatchupState.started,
    finished_at := none }

/-- The spec's boundary scenario: a started matchup tied 2 : 2 with
`min_votes = 4`, expired one second ago. -/
def sched_row_tie : SchedRow :=
  { tournament_id := "T", index := 0, chat_id := 1, message_id := some 5,
    duration_secs := 100, started_at := some 0, votes_a := some 2,
    votes_b := some 2, min_votes := some 4, state := MatchupState.started,
    finished_at := none }

/-- A burst of three poll updates, two of them for poll "p". -/
def burst_ex : List (Nat × PollData) :=
  [(1, { id := "p", is_closed := false, options := [("GIF A", 1), ("GIF B", 0)] }),
   (3, { id := "q", is_closed := false, options := [("GIF A", 0), ("GIF B", 1)] }),
   (2, { id := "p", is_closed := false, options := [("GIF A", 1), ("GIF B", 1)] })]

/-- The poll "q" payload occurring in `burst_ex`. -/
def poll_q_ex : PollData :=
  { id := "q", is_closed := false, options := [("GIF A", 0), ("GIF B", 1)] }

/-- A closed-poll update event. -/
def closed_poll_ex : PollData :=
  { id := "p", is_closed := true, options := [("GIF A", 7), ("GIF B", 5)] }

/-- An open-poll update event for poll "p" with counts 4 : 2. -/
def open_poll_ex : PollData :=
  { id := "p", is_closed := false, options := [("GIF A", 4), ("GIF B", 2)] }

/-- Two matchup rows carrying poll id "p": one started, one finished. -/
def poll_db_ex : List PollMatchupRow :=
  [{ tournament_id := "T", index := 0, poll_id := some "p",
     state := MatchupState.started, votes_a := some 0, votes_b := some 0 },
   { tournament_id := "T", index := 1, poll_id := some "p",
     state := MatchupState.finished, votes_a := some 9, votes_b := some 9 }]

/-- A complete two-round tournament about to finish: the ended final is at
index 2 (round 1, votes 1 : 4), while the matchup at index 0 (round 2) has
votes 5 : 1. -/
def adv_db_ex : AdvDb :=
  { tournaments := [{ id := "T", chat_id := 1, rounds := some 2,
                      state := TournamentState.voting }],
    matchups :=
      [{ tournament_id := "T", index := 0, round := 2,
         animation_a_id := some "A0", animation_b_id := some "B0",
         animation_a_votes := some 5, animation_b_votes := some 1 },
       { tournament_id := "T", index := 1, round := 2,
         animation_a_id := some "A1", animation_b_id := some "B1",
         animation_a_votes := some 2, animation_b_votes := some 3 },
       { tournament_id := "T", index := 2, round := 1,
         animation_a_id := some "A0", animation_b_id := some "B1",
         animation_a_votes := some 1, animation_b_votes := some 4 }],
    animations := [("A0", "fA0"), ("B0", "fB0"), ("A1", "fA1"), ("B1", "fB1")] }

/-- The database `adv_db_ex` after its tournament was marked finished. -/
def adv_db_ex_finished : AdvDb :=
  { adv_db_ex with
    tournaments := [{ id := "T", chat_id := 1, rounds := some 2,
                      state := TournamentState.finished }] }

/-- A submission-handler configuration accepting mp4 GIFs of at most 8
seconds. -/
def sub_cfg_ex : SubConfig :=
  { allowed_mime_types := ["video/mp4"], max_duration_secs := 8 }

/-- A submission message from user 7 in chat 1. -/
def sub_msg_ex : ChatMsg :=
  { chat_id := 1, message_id := 10, from_user := some (7, some "user") }

/-- A submitted animation payload. -/
def sub_anim_ex : AnimationMsg :=
  { file_unique_id := "anim1", file_id := "file1",
    mime_type := some "video/mp4", file_name := some "cat.mp4" }

/-- Probed parameters of a 10-second clip (300 frames at 30/1 fps). -/
def sub_params_long_ex : AnimationParams :=
  { width := 640, height := 480, fps_num := 30, fps_denom := 1, frames := 300 }

/-- A database with one `submitting` tournament in chat 1 and no
animations or submissions. -/
def sub_db_ex : SubDb :=
  { tournaments := [{ id := "T", chat_id := 1, state := TournamentState.submitting }],
    animations := [], animation_filenames := [], users := [], duplicates := [],
    submissions := [] }

/-- Feeder matchup number `i` of the concrete previous round: even indices
are won by side A (5 : 1), odd indices by side B (1 : 6). -/
def feeders_fn_ex (i : Nat) : FeederMatchup :=
  { animation_a_id := "A" ++ toString i, animation_b_id := "B" ++ toString i,
    animation_a_votes := if i % 2 = 0 then 5 else 1,
    animation_b_votes := if i % 2 = 0 then 1 else 6 }

/-- A four-feeder previous round (indices 0–3) with distinct vote counts. -/
def feeders_ex (i : Nat) : Option FeederMatchup :=
  if i < 4 then some (feeders_fn_ex i) else none

/-- The bracket produced for `rounds = 2` from submissions
`["a", "b", "c", "d"]` with round lengths `[30, 60]`. -/
def bracket_ms_ex : List BracketMatchup :=
  [{ index := 0, round := 2, animation_a_id := some "a",
     animation_b_id := some "d", duration_secs := 60 },
   { index := 1, round := 2, animation_a_id := some "b",
     animation_b_id := some "c", duration_secs := 60 },
   { index := 2, round := 1, animation_a_id := none,
     animation_b_id := none, duration_secs := 30 }]

/-! ## Theorems -/

/-- C1 (counterexample): the scheduler does NOT finish a started matchup at
the instant `now = started_at + duration_secs`, even though the votes differ
(3 ≠ 1) and their sum reaches `min_votes = 1`: the source condition is the
strict `expires < now`, so the claimed `now ≥ started_at + duration_secs`
trigger — "in particular … already at the instant of equality" — is false at
this input. -/
theorem sched_step_no_transition_at_expiry_instant :
    sched_row_ex.state = MatchupState.started ∧
    sched_row_ex.started_at = some 0 ∧ sched_row_ex.duration_secs = 100 ∧
    sched_row_ex.votes_a = some 3 ∧ sched_row_ex.votes_b = some 1 ∧
    sched_row_ex.min_votes = some 1 ∧
    (100 : Int) ≥ 0 + 100 ∧ (3 : Int) ≠ 1 ∧ (3 : Int) + 1 ≥ 1 ∧
    sched_step 100 sched_row_ex = (sched_row_ex, false) := by
  decide

/-- C1 (amended): for a started matchup with all columns present, a
scheduler tick at time `now` transitions it to `finished` (setting
`finished_at := now` and stopping the poll) exactly when
`now > started_at + duration_secs` (strictly), `votes_a ≠ votes_b` and
`votes_a + votes_b ≥ min_votes`; when the condition fails the row is left
unchanged.  (The transition does not fire at the instant
`now = started_at + duration_secs`.) -/
theorem sched_step_finished_iff (now mid sa va vb mv : Int) (r : SchedRow)
    (hstate : r.state = MatchupState.started)
    (hmid : r.message_id = some mid) (hsa : r.started_at = some sa)
    (hva : r.votes_a = some va) (hvb : r.votes_b = some vb)
    (hmv : r.min_votes = some mv) :
    (sched_step now r =
        ({ r with state := MatchupState.finished, finished_at := some now }, true) ↔
      (sa + r.duration_secs < now ∧ va ≠ vb ∧ va + vb ≥ mv)) ∧
    (¬ (sa + r.duration_secs < now ∧ va ≠ vb ∧ va + vb ≥ mv) →
      sched_step now r = (r, false)) := by
  unfold sched_step
  rw [hstate, hmid, hsa, hva, hvb, hmv]
  simp only [if_pos rfl]
  by_cases h : sa + r.duration_secs < now ∧ va ≠ vb ∧ va + vb ≥ mv
  · simp [h]
  · simp only [if_neg h]
    refine ⟨⟨fun heq => absurd (congrArg Prod.snd heq) (by simp), fun hc => absurd hc h⟩,
      fun _ => rfl⟩

/-- C1 (witness): the amended transition rule applied to the concrete row
`sched_row_ex` at `now = 101`, one unit past expiry. -/
theorem sched_step_finished_iff_witness :
    sched_step 101 sched_row_ex =
      ({ sched_row_ex with state := MatchupState.finished,
                           finished_at := some (101 : Int) }, true) :=
  (sched_step_finished_iff 101 5 0 3 1 1 sched_row_ex (by decide) (by decide)
    (by decide) (by decide) (by decide) (by decide)).1.mpr (by decide)

/-- C7: a started matchup past its expiry whose votes are tied, or whose
vote total is below `min_votes`, is left entirely unchanged by the scheduler
tick — no state change, no field update, no poll stop — so it is simply
reconsidered on the next tick. -/
theorem sched_step_extends_on_tie_or_shortfall (now sa va vb mv : Int)
    (r : SchedRow) (hstate : r.state = MatchupState.started)
    (hsa : r.started_at = some sa) (hva : r.votes_a = some va)
    (hvb : r.votes_b = some vb) (hmv : r.min_votes = some mv)
    (_hexpired : sa + r.duration_secs ≤ now)
    (hcond : va = vb ∨ va + vb < mv) :
    sched_step now r = (r, false) := by
  unfold sched_step
  rw [hstate, hsa, hva, hvb, hmv]
  simp only [if_pos rfl]
  cases hmsg : r.message_id with
  | none => rfl
  | some mid =>
    have h : ¬ (sa + r.duration_secs < now ∧ va ≠ vb ∧ va + vb ≥ mv) := by
      rcases hcond with h1 | h1
      · exact fun hc => hc.2.1 h1
      · exact fun hc => absurd hc.2.2 (by omega)
    simp [h]

/-- C7 (witness): the spec's boundary scenario — votes 2 : 2,
`min_votes = 4`, one second past expiry — is left unchanged. -/
theorem sched_step_extends_on_tie_or_shortfall_witness :
    sched_step 101 sched_row_tie = (sched_row_tie, false) :=
  sched_step_extends_on_tie_or_shortfall 101 0 2 2 4 sched_row_tie (by decide)
    (by decide) (by decide) (by decide) (by decide) (by decide) (Or.inl rfl)

/-- C9: a poll-update event whose poll is marked closed returns success
without touching the database: the stored vote counts are unchanged. -/
theorem handle_poll_update_closed_noop (a_text b_text : String)
    (db : List PollMatchupRow) (poll : PollData) (h : poll.is_closed = true) :
    handle_poll_update a_text b_text db poll = (Except.ok (), db) := by
  unfold handle_poll_update
  rw [h]
  simp

/-- C9 (witness): a concrete closed-poll event against the two-row
database leaves it untouched. -/
theorem handle_poll_update_closed_noop_witness :
    handle_poll_update "GIF A" "GIF B" poll_db_ex closed_poll_ex =
      (Except.ok (), poll_db_ex) :=
  handle_poll_update_closed_noop "GIF A" "GIF B" poll_db_ex closed_poll_ex rfl

/-- C10: the vote-count write of a non-closed poll update only targets rows
whose `poll_id` matches the update and whose state is `started`: any row
that is in another state, or carries another poll id, is returned unchanged
(this also covers the rolled-back error branches). -/
theorem handle_poll_update_frame (a_text b_text : String)
    (db : List PollMatchupRow) (poll : PollData) (i : Nat) (r : PollMatchupRow)
    (hr : db[i]? = some r)
    (h : r.state ≠ MatchupState.started ∨ r.poll_id ≠ some poll.id) :
    (handle_poll_update a_text b_text db poll).2[i]? = some r := by
  unfold handle_poll_update
  by_cases hc : poll.is_closed = true
  · rw [hc]
    simpa using hr
  · rw [Bool.not_eq_true] at hc
    rw [hc]
    simp only [Bool.false_eq_true, if_false]
    match extract_votes a_text b_text poll.options none none with
    | none => simpa using hr
    | some (none, _) => simpa using hr
    | some (some _, none) => simpa using hr
    | some (some va, some vb) =>
      simp only
      split
      · split
        · simpa using hr
        · rw [List.getElem?_map, hr]
          have hcond : ¬ (r.poll_id = some poll.id ∧ r.state = MatchupState.started) := by
            rcases h with h1 | h1
            · exact fun hc2 => h1 hc2.2
            · exact fun hc2 => h1 hc2.1
          simp [hcond]
      · simpa using hr

/-- C10 (witness): the update for poll "p" with counts 4 : 2 leaves the
finished row (index 1), which also carries poll id "p", unchanged. -/
theorem handle_poll_update_frame_witness :
    (handle_poll_update "GIF A" "GIF B" poll_db_ex open_poll_ex).2[1]? =
      some { tournament_id := "T", index := 1, poll_id := some "p",
             state := MatchupState.finished, votes_a := some 9, votes_b := some 9 } :=
  handle_poll_update_frame "GIF A" "GIF B" poll_db_ex open_poll_ex 1
    { tournament_id := "T", index := 1, poll_id := some "p",
      state := MatchupState.finished, votes_a := some 9, votes_b := some 9 }
    (by decide) (Or.inl (by decide))

/-- Every entry of the map after one insertion is either an old entry or the
inserted pair. -/
theorem coalesce_insert_mem (acc : List (Nat × PollData)) (u e : Nat × PollData)
    (he : e ∈ coalesce_insert acc u) : e ∈ acc ∨ e = u := by
  induction acc with
  | nil => simpa [coalesce_insert] using he
  | cons a rest ih =>
    unfold coalesce_insert at he
    by_cases hid : a.2.id = u.2.id
    · rw [if_pos hid] at he
      rcases List.mem_cons.mp he with h1 | h1
      · by_cases hlt : a.1 < u.1
        · right; rw [if_pos hlt] at h1; exact h1
        · left; rw [if_neg hlt] at h1; exact h1 ▸ List.mem_cons_self a rest
      · left; exact List.mem_cons_of_mem a h1
    · rw [if_neg hid] at he
      rcases List.mem_cons.mp he with h1 | h1
      · left; exact h1 ▸ List.mem_cons_self a rest
      · rcases ih h1 with h2 | h2
        · left; exact List.mem_cons_of_mem a h2
        · right; exact h2

/-- The key list after one insertion: unchanged when the id is already
present, else extended by the new id. -/
theorem coalesce_insert_ids (acc : List (Nat × PollData)) (u : Nat × PollData) :
    (coalesce_insert acc u).map (fun e => e.2.id) =
      if u.2.id ∈ acc.map (fun e => e.2.id) then acc.map (fun e => e.2.id)
      else acc.map (fun e => e.2.id) ++ [u.2.id] := by
  induction acc with
  | nil => simp [coalesce_insert]
  | cons a rest ih =>
    unfold coalesce_insert
    by_cases hid : a.2.id = u.2.id
    · rw [if_pos hid]
      have hmem : u.2.id ∈ (a :: rest).map (fun e => e.2.id) := by
        simp [List.map_cons, hid.symm]
      rw [if_pos hmem]
      by_cases hlt : a.1 < u.1 <;> simp [hlt, hid]
    · rw [if_neg hid]
      simp only [List.map_cons]
      rw [ih]
      by_cases hmem : u.2.id ∈ rest.map (fun e => e.2.id)
      · rw [if_pos hmem, if_pos (by simp [hmem])]
      · rw [if_neg hmem, if_neg ?_]
        · simp
        · simp only [List.mem_cons]
          rintro (h1 | h1)
          · exact hid h1.symm
          · exact hmem h1

/-- Dominance is preserved by one insertion: every entry of the new map
bounds (by `update_id`) every pair of `processed ++ [u]` with its poll id.
The freshness hypothesis is the coverage fact that an id absent from the map
is absent from the processed prefix. -/
theorem coalesce_insert_dom (acc : List (Nat × PollData)) (u : Nat × PollData)
    (processed : List (Nat × PollData))
    (hdom : ∀ e ∈ acc, ∀ q ∈ processed, q.2.id = e.2.id → q.1 ≤ e.1)
    (hnd : (acc.map fun e => e.2.id).Nodup)
    (hfresh : u.2.id ∉ acc.map (fun e => e.2.id) → ∀ q ∈ processed, q.2.id ≠ u.2.id) :
    ∀ e ∈ coalesce_insert acc u, ∀ q ∈ processed ++ [u],
      q.2.id = e.2.id → q.1 ≤ e.1 := by
  induction acc with
  | nil =>
    intro e he q hq hid
    simp only [coalesce_insert, List.mem_singleton] at he
    subst he
    rcases List.mem_append.mp hq with h1 | h1
    · exact absurd hid (hfresh (by simp) q h1)
    · rw [List.mem_singleton] at h1; subst h1; exact le_refl _
  | cons a rest ih =>
    intro e he q hq hid
    unfold coalesce_insert at he
    by_cases haid : a.2.id = u.2.id
    · rw [if_pos haid] at he
      rcases List.mem_cons.mp he with h1 | h1
      · have heida : e.2.id = a.2.id := by
          by_cases hlt : a.1 < u.1
          · rw [if_pos hlt] at h1; rw [h1]; exact haid.symm
          · rw [if_neg hlt] at h1; rw [h1]
        have hae : a.1 ≤ e.1 := by
          by_cases hlt : a.1 < u.1
          · rw [if_pos hlt] at h1; rw [h1]; exact le_of_lt hlt
          · rw [if_neg hlt] at h1; rw [h1]
        have hue : u.1 ≤ e.1 := by
          by_cases hlt : a.1 < u.1
          · rw [if_pos hlt] at h1; rw [h1]
          · rw [if_neg hlt] at h1; rw [h1]; exact le_of_not_lt hlt
        rcases List.mem_append.mp hq with h2 | h2
        · exact le_trans
            (hdom a (List.mem_cons_self a rest) q h2 (hid.trans heida)) hae
        · rw [List.mem_singleton] at h2; subst h2; exact hue
      · rcases List.mem_append.mp hq with h2 | h2
        · exact hdom e (List.mem_cons_of_mem a h1) q h2 hid
        · rw [List.mem_singleton] at h2; subst h2
          have hin : e.2.id ∈ rest.map (fun e => e.2.id) :=
            List.mem_map.mpr ⟨e, h1, rfl⟩
          have hnd' : (a.2.id :: rest.map (fun e => e.2.id)).Nodup := by
            rw [List.map_cons] at hnd; exact hnd
          have hnotin : a.2.id ∉ rest.map (fun e => e.2.id) :=
            (List.nodup_cons.mp hnd').1
          exact absurd (haid ▸ hid ▸ hin) hnotin
    · rw [if_neg haid] at he
      rcases List.mem_cons.mp he with h1 | h1
      · subst h1
        rcases List.mem_append.mp hq with h2 | h2
        · exact hdom e (List.mem_cons_self e rest) q h2 hid
        · rw [List.mem_singleton] at h2; subst h2
          exact absurd hid.symm haid
      · refine ih (fun e' he' q' hq' hid' =>
            hdom e' (List.mem_cons_of_mem a he') q' hq' hid') ?_ ?_ e h1 q hq hid
        · have hnd' : (a.2.id :: rest.map (fun e => e.2.id)).Nodup := by
            rw [List.map_cons] at hnd; exact hnd
          exact (List.nodup_cons.mp hnd').2
        · intro hnotin q' hq'
          refine hfresh ?_ q' hq'
          simp only [List.map_cons, List.mem_cons]
          rintro (h2 | h2)
          · exact haid h2.symm
          · exact hnotin h2

/-- One insertion preserves the coalescing invariant. -/
theorem coalesce_insert_inv (processed acc : List (Nat × PollData))
    (u : Nat × PollData) (h : CoalesceInv processed acc) :
    CoalesceInv (processed ++ [u]) (coalesce_insert acc u) := by
  obtain ⟨hmem, hdom, hcov, hnd⟩ := h
  refine ⟨?_, ?_, ?_, ?_⟩
  · intro e he
    rcases coalesce_insert_mem acc u e he with h1 | h1
    · exact List.mem_append.mpr (Or.inl (hmem e h1))
    · exact List.mem_append.mpr (Or.inr (by simp [h1]))
  · refine coalesce_insert_dom acc u processed hdom hnd ?_
    intro hnotin q hq hqid
    obtain ⟨e, he, heid⟩ := hcov q hq
    exact hnotin (List.mem_map.mpr ⟨e, he, heid.trans hqid⟩)
  · have hsup : ∀ x, x ∈ acc.map (fun e => e.2.id) →
        x ∈ (coalesce_insert acc u).map (fun e => e.2.id) := by
      intro x hx
      rw [coalesce_insert_ids]
      split
      · exact hx
      · exact List.mem_append.mpr (Or.inl hx)
    have huid : u.2.id ∈ (coalesce_insert acc u).map (fun e => e.2.id) := by
      rw [coalesce_insert_ids]
      split
      · assumption
      · exact List.mem_append.mpr (Or.inr (by simp))
    intro q hq
    rcases List.mem_append.mp hq with h1 | h1
    · obtain ⟨e, he, heid⟩ := hcov q h1
      obtain ⟨e', he', heid'⟩ :=
        List.mem_map.mp (hsup e.2.id (List.mem_map.mpr ⟨e, he, rfl⟩))
      exact ⟨e', he', heid'.trans heid⟩
    · rw [List.mem_singleton] at h1; subst h1
      obtain ⟨e', he', heid'⟩ := List.mem_map.mp huid
      exact ⟨e', he', heid'⟩
  · rw [coalesce_insert_ids]
    split
    · exact hnd
    · rw [List.nodup_append]
      exact ⟨hnd, List.nodup_singleton _, by
        intro x hx hx'
        rw [List.mem_singleton] at hx'
        subst hx'
        exact ‹u.2.id ∉ acc.map fun e => e.2.id› hx⟩

/-- Folding a burst suffix into a map satisfying the invariant yields a map
satisfying the invariant for the extended prefix. -/
theorem coalesce_foldl_inv :
    ∀ (us acc processed : List (Nat × PollData)), CoalesceInv processed acc →
      CoalesceInv (processed ++ us) (us.foldl coalesce_insert acc) := by
  intro us
  induction us with
  | nil => intro acc processed h; simpa using h
  | cons u rest ih =>
    intro acc processed h
    have step := coalesce_insert_inv processed acc u h
    have := ih (coalesce_insert acc u) (processed ++ [u]) step
    simpa [List.append_assoc] using this

/-- C8: after coalescing one drained burst, the per-poll handler invocation
list has pairwise-distinct poll ids (at most one invocation per poll); every
invoked pair belongs to the burst and carries the maximum `update_id` among
the burst's pairs with its poll id; and every poll id occurring anywhere in
the burst is represented — the whole drained burst is accounted for before
the coalescer blocks again. -/
theorem coalesce_burst_spec (us : List (Nat × PollData)) :
    ((coalesce us).map fun e => e.2.id).Nodup ∧
    (∀ e ∈ coalesce us, e ∈ us ∧ ∀ q ∈ us, q.2.id = e.2.id → q.1 ≤ e.1) ∧
    (∀ q ∈ us, ∃ e ∈ coalesce us, e.2.id = q.2.id) := by
  have h := coalesce_foldl_inv us [] []
    ⟨by simp, by simp, by simp, List.nodup_nil⟩
  rw [List.nil_append] at h
  obtain ⟨h1, h2, h3, h4⟩ := h
  exact ⟨h4, fun e he => ⟨h1 e he, h2 e he⟩, h3⟩

/-- C8 (witness): in the concrete burst `burst_ex`, the handler is invoked
for poll "q" with its (unique, hence maximal) pair `(3, q)`. -/
theorem coalesce_burst_spec_witness :
    ((3 : Nat), poll_q_ex) ∈ burst_ex ∧
    ∀ q ∈ burst_ex, q.2.id = poll_q_ex.id → q.1 ≤ 3 :=
  (coalesce_burst_spec burst_ex).2.1 ((3 : Nat), poll_q_ex) (by decide)

/-- C2 (counterexample): submitting the unknown 10-second animation with
`max_duration_secs = 8` produces exactly the refusal reply, but the
database is returned unchanged — in particular NO animation row is
inserted (the handler returns before the insert and the transaction is
rolled back), contradicting the claim that the animation row is still
inserted. -/
theorem handle_submission_too_long_no_animation_row :
    (handle_submission sub_cfg_ex sub_msg_ex sub_anim_ex SaveResult.ok
        ThumbResult.ok (ProbeResult.ok sub_params_long_ex) sub_db_ex).replies =
      ["GIFs longer than 8 seconds are not accepted."] ∧
    (handle_submission sub_cfg_ex sub_msg_ex sub_anim_ex SaveResult.ok
        ThumbResult.ok (ProbeResult.ok sub_params_long_ex) sub_db_ex).db =
      sub_db_ex ∧
    (handle_submission sub_cfg_ex sub_msg_ex sub_anim_ex SaveResult.ok
        ThumbResult.ok (ProbeResult.ok sub_params_long_ex) sub_db_ex).db.animations =
      [] ∧
    (handle_submission sub_cfg_ex sub_msg_ex sub_anim_ex SaveResult.ok
        ThumbResult.ok (ProbeResult.ok sub_params_long_ex) sub_db_ex).db.submissions =
      [] := by
  decide

/-- C2 (amended): when a user submits an animation that is not yet in the
animations table and whose probed duration exceeds `max_duration_secs`, the
handler replies with exactly "GIFs longer than N seconds are not accepted."
and returns success, and the transaction is rolled back: neither an
animation row nor a submission row is persisted (the database is returned
exactly as it was). -/
theorem handle_submission_too_long_refuses (cfg : SubConfig) (msg : ChatMsg)
    (anim : AnimationMsg) (db : SubDb) (tr : SubTournamentRow)
    (params : AnimationParams) (mt : String)
    (hmime : anim.mime_type = some mt)
    (hallowed : mt ∈ cfg.allowed_mime_types)
    (htour : db.tournaments.filter (fun t =>
      decide (t.chat_id = msg.chat_id ∧ t.state = TournamentState.submitting)) = [tr])
    (hanim : db.animations.filter (fun a => decide (a.id = anim.file_unique_id)) = [])
    (hdur : duration_exceeds params cfg.max_duration_secs) :
    handle_submission cfg msg anim SaveResult.ok ThumbResult.ok
        (ProbeResult.ok params) db =
      { db := db,
        replies := ["GIFs longer than " ++ toString cfg.max_duration_secs ++
          " seconds are not accepted."],
        result := Except.ok () } := by
  unfold handle_submission
  rw [hmime, htour, hanim]
  simp [hallowed, hdur]

/-- C2 (witness): the amended refusal rule applied to the concrete
10-second submission. -/
theorem handle_submission_too_long_refuses_witness :
    handle_submission sub_cfg_ex sub_msg_ex sub_anim_ex SaveResult.ok
        ThumbResult.ok (ProbeResult.ok sub_params_long_ex) sub_db_ex =
      { db := sub_db_ex,
        replies := ["GIFs longer than " ++ toString sub_cfg_ex.max_duration_secs ++
          " seconds are not accepted."],
        result := Except.ok () } :=
  handle_submission_too_long_refuses sub_cfg_ex sub_msg_ex sub_anim_ex sub_db_ex
    { id := "T", chat_id := 1, state := TournamentState.submitting }
    sub_params_long_ex "video/mp4" (by decide) (by decide) (by decide) (by decide)
    (by decide)

/-- C6 (counterexample): in the two-round tournament `adv_db_ex` the
advancer finds no matchup at index 3, finishes the tournament, and sends
winner "B1" — the higher-vote side of the ended matchup at the HIGHEST
index (2, round 1) — whereas the matchup at index 0 (round 2, votes 5 : 1)
has the different higher-vote side "A0": the winner is not identified from
the index-0 matchup as the claim states. -/
theorem advance_matchup_winner_not_from_index0 :
    advance_matchup adv_db_ex "T" 2 =
      Except.ok (AdvanceStep.finishedTournament adv_db_ex_finished "B1") ∧
    final_winner_spec_index0 adv_db_ex "T" = some "A0" ∧
    ("B1" : String) ≠ "A0" := by
  decide

/-- C6 (amended): when the advancer finds no matchup at `ended_index + 1`,
the tournament's state is set to `finished` and the final winner that is
sent and pinned is identified from the vote counts of the ended matchup —
the matchup at the highest index, which in the canonical layout is the
round-1 final — taking the animation on the higher-vote side; equal vote
counts in that matchup are an error. -/
theorem advance_matchup_finishes (db : AdvDb) (tid : String) (e : Int)
    (tr : AdvTournamentRow) (em : AdvMatchupRow) (R va vb : Int)
    (aid bid : String) (fa fb : String × String)
    (htr : db.tournaments.filter (fun t => decide (t.id = tid)) = [tr])
    (hrounds : tr.rounds = some R)
    (hended : db.matchups.filter (fun m =>
        decide (m.tournament_id = tid ∧ m.index = e)) = [em])
    (hnew : db.matchups.filter (fun m =>
        decide (m.tournament_id = tid ∧ m.index = e + 1)) = [])
    (hva : em.animation_a_votes = some va) (hvb : em.animation_b_votes = some vb)
    (ha : em.animation_a_id = some aid) (hb : em.animation_b_id = some bid)
    (hfa : db.animations.filter (fun p => decide (p.1 = aid)) = [fa])
    (hfb : db.animations.filter (fun p => decide (p.1 = bid)) = [fb]) :
    (va ≠ vb → advance_matchup db tid e =
      Except.ok (AdvanceStep.finishedTournament
        { db with tournaments := db.tournaments.map fun t =>
            if t.id = tid then { t with state := TournamentState.finished } else t }
        (if va < vb then bid else aid))) ∧
    (va = vb → advance_matchup db tid e = Except.error AdvanceMatchupError.EqualVotes) := by
  constructor
  · intro hne
    unfold advance_matchup
    rw [htr, hended, hnew]
    simp only [List.length_cons, List.length_nil, List.head?_cons, List.head?_nil,
      hrounds, hva, hvb]
    rw [if_neg (by omega)]
    rw [if_neg hne]
    unfold finish_tournament
    rw [htr, hended]
    simp only [List.length_cons, List.length_nil, hva, hvb]
    rw [if_neg (by omega)]
    by_cases hlt : va < vb
    · rw [if_pos hlt, hb, if_pos hlt]
      simp only [hfb]
    · rw [if_neg hlt, if_neg hne, ha, if_neg hlt]
      simp only [hfa]
  · intro heq
    unfold advance_matchup
    rw [htr, hended, hnew]
    simp only [List.length_cons, List.length_nil, List.head?_cons, hrounds, hva, hvb]
    rw [if_neg (by omega)]
    rw [if_pos heq]

/-- C6 (witness): the amended rule applied to the concrete tournament
`adv_db_ex` with ended index 2 (votes 1 : 4, winner "B1"). -/
theorem advance_matchup_finishes_witness :
    advance_matchup adv_db_ex "T" 2 =
      Except.ok (AdvanceStep.finishedTournament
        { adv_db_ex with tournaments := adv_db_ex.tournaments.map fun t =>
            if t.id = "T" then { t with state := TournamentState.finished } else t }
        (if (1 : Int) < 4 then "B1" else "A0")) :=
  (advance_matchup_finishes adv_db_ex "T" 2
    { id := "T", chat_id := 1, rounds := some 2, state := TournamentState.voting }
    { tournament_id := "T", index := 2, round := 1, animation_a_id := some "A0",
      animation_b_id := some "B1", animation_a_votes := some 1,
      animation_b_votes := some 4 }
    2 1 4 "A0" "B1" ("A0", "fA0") ("B1", "fB1") (by decide) (by decide) (by decide)
    (by decide) (by decide) (by decide) (by decide) (by decide) (by decide)
    (by decide)).1 (by decide)

/-- The doubling step doubles the sequence length. -/
theorem next_seeds_aux_length (m : Nat) (l : List Nat) :
    (next_seeds_aux m l).length = 2 * l.length := by
  induction l with
  | nil => rfl
  | cons a t ih =>
    simp only [next_seeds_aux, List.length_cons, ih]
    omega

/-- The doubling step doubles the sequence length (outer version). -/
theorem next_seeds_length (l : List Nat) : (next_seeds l).length = 2 * l.length :=
  next_seeds_aux_length _ l

/-- The interleaved doubling step is a permutation of the originals followed
by their mirrored partners. -/
theorem next_seeds_aux_perm (m : Nat) (l : List Nat) :
    (next_seeds_aux m l).Perm (l ++ l.map fun s => m - s - 1) := by
  induction l with
  | nil => rfl
  | cons a t ih =>
    simp only [next_seeds_aux, List.map_cons, List.cons_append]
    exact ((ih.cons _).trans List.perm_middle.symm).cons a

/-- Mapping `s ↦ c + n - 1 - s` over `range n` reverses the map of
`s ↦ c + s`. -/
theorem map_range_mirror (n : Nat) : ∀ c : Nat,
    (List.range n).map (fun s => c + n - 1 - s) =
      ((List.range n).map fun s => c + s).reverse := by
  induction n with
  | zero => intro c; rfl
  | succ n ih =>
    intro c
    have hL : (List.range (n + 1)).map (fun s => c + (n + 1) - 1 - s) =
        ((List.range n).map fun s => (c + 1) + n - 1 - s) ++ [c] := by
      rw [List.range_succ, List.map_append]
      congr 1
      · exact List.map_congr_left fun a _ => by omega
      · simp only [List.map_cons, List.map_nil]
        congr 1
        omega
    have hR : (List.range (n + 1)).map (fun s => c + s) =
        c :: (List.range n).map fun s => (c + 1) + s := by
      rw [List.range_succ_eq_map, List.map_cons, List.map_map]
      congr 1
      exact List.map_congr_left fun a _ => by simp [Function.comp]; omega
    rw [hL, hR, ih (c + 1), List.reverse_cons]

/-- Appending the mirrored partners to `range n` permutes `range (2n)`. -/
theorem range_double_perm (n : Nat) :
    (List.range n ++ (List.range n).map fun s => 2 * n - s - 1).Perm
      (List.range (2 * n)) := by
  have h1 : ((List.range n).map fun s => 2 * n - s - 1) =
      ((List.range n).map fun s => n + s).reverse := by
    rw [← map_range_mirror n n]
    exact List.map_congr_left fun a _ => by omega
  rw [h1]
  have h2 : (List.range n ++ ((List.range n).map fun s => n + s).reverse).Perm
      (List.range n ++ (List.range n).map fun s => n + s) :=
    List.Perm.append_left _ (List.reverse_perm _)
  refine h2.trans ?_
  rw [two_mul, List.range_add]

/-- One doubling step sends a permutation of `range n` to a permutation of
`range (2n)`. -/
theorem next_seeds_perm (l : List Nat) (n : Nat) (h : l.Perm (List.range n)) :
    (next_seeds l).Perm (List.range (2 * n)) := by
  have hlen : l.length = n := h.length_eq.trans (List.length_range n)
  unfold next_seeds
  rw [hlen]
  refine (next_seeds_aux_perm (n * 2) l).trans ?_
  refine (List.Perm.append h (h.map _)).trans ?_
  have : ((List.range n).map fun s => n * 2 - s - 1) =
      (List.range n).map fun s => 2 * n - s - 1 :=
    List.map_congr_left fun a _ => by omega
  rw [this]
  exact range_double_perm n

/-- The seeds loop preserves being a permutation of a doubling range. -/
theorem generate_seeds_go_perm : ∀ (k : Nat) (l : List Nat) (n : Nat) (S : List Nat),
    l.Perm (List.range n) → generate_seeds_go k l = Except.ok S →
    S.Perm (List.range (2 ^ k * n)) := by
  intro k
  induction k with
  | zero =>
    intro l n S hp h
    simp only [generate_seeds_go] at h
    cases h
    simpa using hp
  | succ k ih =>
    intro l n S hp h
    simp only [generate_seeds_go] at h
    split at h
    · have := ih (next_seeds l) (2 * n) S (next_seeds_perm l n hp) h
      have harith : 2 ^ k * (2 * n) = 2 ^ (k + 1) * n := by ring
      rwa [harith] at this
    · exact absurd h (by simp)

/-- A successful seeds loop of at least one iteration ends with a doubling
step applied to a permutation of some range. -/
theorem generate_seeds_go_last : ∀ (k : Nat) (l : List Nat) (n : Nat) (S : List Nat),
    l.Perm (List.range n) → generate_seeds_go k l = Except.ok S →
    (k = 0 ∧ S = l) ∨
      ∃ prev m, prev.Perm (List.range m) ∧ S = next_seeds prev := by
  intro k
  induction k with
  | zero =>
    intro l n S _ h
    simp only [generate_seeds_go] at h
    cases h
    exact Or.inl ⟨rfl, rfl⟩
  | succ k ih =>
    intro l n S hp h
    simp only [generate_seeds_go] at h
    split at h
    · rcases ih (next_seeds l) (2 * n) S (next_seeds_perm l n hp) h with ⟨_, hS⟩ | hrec
      · exact Or.inr ⟨l, n, hp, hS⟩
      · exact Or.inr hrec
    · exact absurd h (by simp)

/-- Elements of the doubling step, read pairwise: position `2j` holds the
old seed and position `2j+1` its mirrored partner. -/
theorem next_seeds_aux_getD (m : Nat) : ∀ (l : List Nat) (j : Nat), j < l.length →
    (next_seeds_aux m l).getD (2 * j) 0 = l.getD j 0 ∧
    (next_seeds_aux m l).getD (2 * j + 1) 0 = m - l.getD j 0 - 1 := by
  intro l
  induction l with
  | nil => intro j hj; exact absurd hj (by simp)
  | cons a t ih =>
    intro j hj
    cases j with
    | zero => exact ⟨rfl, rfl⟩
    | succ j =>
      have h2 : 2 * (j + 1) = 2 * j + 1 + 1 := by omega
      rw [h2]
      simp only [next_seeds_aux, List.getD_cons_succ]
      exact ih j (by simpa using Nat.lt_of_succ_lt_succ hj)

/-- Pair sums of a doubling step applied to a permutation of `range n`:
every consecutive pair sums to `2n - 1`. -/
theorem next_seeds_pairs (l : List Nat) (n : Nat) (h : l.Perm (List.range n)) :
    ∀ k, 2 * k + 1 < (next_seeds l).length →
      (next_seeds l).getD (2 * k) 0 + (next_seeds l).getD (2 * k + 1) 0 =
        2 * n - 1 := by
  intro k hk
  have hlen : l.length = n := h.length_eq.trans (List.length_range n)
  rw [next_seeds_length] at hk
  have hjlt : k < l.length := by omega
  unfold next_seeds
  obtain ⟨h1, h2⟩ := next_seeds_aux_getD (l.length * 2) l k hjlt
  rw [h1, h2]
  have hmem : l.getD k 0 ∈ l := by
    rw [List.getD_eq_getElem?_getD]
    have : l[k]? = some l[k] := List.getElem?_eq_getElem hjlt
    rw [this]
    exact List.getElem_mem hjlt
  have hx : l.getD k 0 < n := List.mem_range.mp (h.mem_iff.mp hmem)
  omega

/-- C3: for every round count `R ≥ 1`, a successfully generated seed
sequence has length `2^R`, is a permutation of `0 .. 2^R - 1`, and every
consecutive pair `(S[2k], S[2k+1])` sums to `2^R - 1`. -/
theorem generate_seeds_spec (R : Nat) (S : List Nat) (hR : 1 ≤ R)
    (h : generate_seeds R = Except.ok S) :
    S.length = 2 ^ R ∧ S.Perm (List.range (2 ^ R)) ∧
      ∀ k, 2 * k + 1 < S.length →
        S.getD (2 * k) 0 + S.getD (2 * k + 1) 0 = 2 ^ R - 1 := by
  unfold generate_seeds at h
  have hbase : ([0, 1] : List Nat).Perm (List.range 2) := by decide
  have hperm := generate_seeds_go_perm (R - 1) [0, 1] 2 S hbase h
  have h2 : 2 ^ (R - 1) * 2 = 2 ^ R := by
    rw [← pow_succ]
    congr 1
    omega
  rw [h2] at hperm
  have hlen : S.length = 2 ^ R := hperm.length_eq.trans (List.length_range _)
  refine ⟨hlen, hperm, ?_⟩
  rcases generate_seeds_go_last (R - 1) [0, 1] 2 S hbase h with
    ⟨hk0, hSl⟩ | ⟨prev, m, hprev, hS⟩
  · subst hSl
    intro k hk
    have hR1 : R = 1 := by omega
    subst hR1
    have hk0' : k = 0 := by
      simp only [List.length_cons, List.length_nil] at hk
      omega
    subst hk0'
    rfl
  · subst hS
    intro k hk
    have hps := next_seeds_pairs prev m hprev k hk
    have hplen : prev.length = m := hprev.length_eq.trans (List.length_range m)
    have h2m : 2 * m = 2 ^ R := by
      rw [next_seeds_length] at hlen
      omega
    rw [← h2m]
    exact hps

/-- C3 (witness): the concrete seed sequence for `R = 3`. -/
theorem generate_seeds_spec_witness :
    ([0, 7, 3, 4, 1, 6, 2, 5] : List Nat).length = 2 ^ 3 ∧
    ([0, 7, 3, 4, 1, 6, 2, 5] : List Nat).Perm (List.range (2 ^ 3)) ∧
    ([0, 7, 3, 4, 1, 6, 2, 5] : List Nat).getD 2 0 +
      ([0, 7, 3, 4, 1, 6, 2, 5] : List Nat).getD 3 0 = 2 ^ 3 - 1 := by
  have h := generate_seeds_spec 3 [0, 7, 3, 4, 1, 6, 2, 5] (by decide) (by decide)
  exact ⟨h.1, h.2.1, h.2.2 1 (by decide)⟩

/-- With distinct votes the source's winner selection returns the
higher-vote side. -/
theorem feeder_winner_of_ne (m : FeederMatchup)
    (h : m.animation_a_votes ≠ m.animation_b_votes) :
    feeder_winner m = some (higher_vote_side m) := by
  unfold feeder_winner higher_vote_side
  rcases lt_trichotomy m.animation_a_votes m.animation_b_votes with h1 | h1 | h1
  · rw [if_neg (by omega), if_pos h1, if_neg (by omega)]
  · exact absurd h1 h
  · rw [if_pos h1, if_pos h1]

/-- With equal votes the source's winner selection is the integrity
error. -/
theorem feeder_winner_of_eq (m : FeederMatchup)
    (h : m.animation_a_votes = m.animation_b_votes) :
    feeder_winner m = none := by
  unfold feeder_winner
  rw [if_neg (by omega), if_neg (by omega)]

/-- Success characterization of the round-promotion loop: with all `2n`
feeders present (consecutively from `idx - x`) and none tied, the loop
produces exactly the updates pairing consecutive feeder winners, at
consecutive target indices. -/
theorem calc_loop_ok (matchups : Nat → Option FeederMatchup) :
    ∀ (n : Nat) (g : Nat → FeederMatchup) (idx x : Nat), n ≤ x → x ≤ idx →
    (∀ k, k < 2 * n → matchups (idx - x + k) = some (g k)) →
    (∀ k, k < 2 * n → (g k).animation_a_votes ≠ (g k).animation_b_votes) →
    calc_loop matchups n idx x = Except.ok ((List.range n).map fun j =>
      (idx + j, higher_vote_side (g (2 * j)), higher_vote_side (g (2 * j + 1)))) := by
  intro n
  induction n with
  | zero => intro g idx x _ _ _ _; rfl
  | succ n ih =>
    intro g idx x hnx hxi hlook hne
    have h0 : matchups (idx - x) = some (g 0) := by
      have := hlook 0 (by omega)
      simpa using this
    have h1 : matchups (idx - x + 1) = some (g 1) := hlook 1 (by omega)
    have hw0 := feeder_winner_of_ne (g 0) (hne 0 (by omega))
    have hw1 := feeder_winner_of_ne (g 1) (hne 1 (by omega))
    have hbase : (idx + 1) - (x - 1) = idx - x + 2 := by omega
    have hrec := ih (fun k => g (k + 2)) (idx + 1) (x - 1) (by omega) (by omega)
      (fun k hk => by
        rw [hbase, show idx - x + 2 + k = idx - x + (k + 2) by omega]
        exact hlook (k + 2) (by omega))
      (fun k hk => hne (k + 2) (by omega))
    unfold calc_loop
    simp only [h0, h1, hw0, hw1, hrec]
    rw [List.range_succ_eq_map, List.map_cons, List.map_map]
    refine congrArg Except.ok (congrArg₂ List.cons ?_ ?_)
    · rfl
    · refine List.map_congr_left fun a _ => ?_
      show (idx + 1 + a, higher_vote_side (g (2 * a + 2)),
          higher_vote_side (g (2 * a + 1 + 2))) =
        (idx + (a + 1), higher_vote_side (g (2 * (a + 1))),
          higher_vote_side (g (2 * (a + 1) + 1)))
      rw [show idx + 1 + a = idx + (a + 1) from by omega,
        show 2 * a + 2 = 2 * (a + 1) from by omega,
        show 2 * a + 1 + 2 = 2 * (a + 1) + 1 from by omega]

/-- Error characterization of the round-promotion loop: with all feeders
present, a tied feeder makes the loop fail with the equal-votes integrity
error. -/
theorem calc_loop_equal_votes (matchups : Nat → Option FeederMatchup) :
    ∀ (n : Nat) (g : Nat → FeederMatchup) (idx x : Nat), n ≤ x → x ≤ idx →
    (∀ k, k < 2 * n → matchups (idx - x + k) = some (g k)) →
    (∃ k, k < 2 * n ∧ (g k).animation_a_votes = (g k).animation_b_votes) →
    calc_loop matchups n idx x =
      Except.error
        (CalculateNewRoundMatchupsError.DbIntegrityError "matchup has equal votes") := by
  intro n
  induction n with
  | zero =>
    intro g idx x _ _ _ hex
    obtain ⟨k, hk, _⟩ := hex
    omega
  | succ n ih =>
    intro g idx x hnx hxi hlook hex
    have h0 : matchups (idx - x) = some (g 0) := by
      have := hlook 0 (by omega)
      simpa using this
    have h1 : matchups (idx - x + 1) = some (g 1) := hlook 1 (by omega)
    unfold calc_loop
    by_cases he0 : (g 0).animation_a_votes = (g 0).animation_b_votes
    · simp only [h0, feeder_winner_of_eq (g 0) he0]
    · by_cases he1 : (g 1).animation_a_votes = (g 1).animation_b_votes
      · simp only [h0, feeder_winner_of_ne (g 0) he0, h1,
          feeder_winner_of_eq (g 1) he1]
      · have hbase : (idx + 1) - (x - 1) = idx - x + 2 := by omega
        obtain ⟨k, hk, heq⟩ := hex
        have hk2 : 2 ≤ k := by
          rcases Nat.lt_or_ge k 2 with h2 | h2
          · interval_cases k
            · exact absurd heq he0
            · exact absurd heq he1
          · exact h2
        have hrec := ih (fun k' => g (k' + 2)) (idx + 1) (x - 1) (by omega) (by omega)
          (fun k' hk' => by
            rw [hbase, show idx - x + 2 + k' = idx - x + (k' + 2) by omega]
            exact hlook (k' + 2) (by omega))
          ⟨k - 2, by omega, by
            show (g (k - 2 + 2)).animation_a_votes = (g (k - 2 + 2)).animation_b_votes
            rw [show k - 2 + 2 = k by omega]
            exact heq⟩
        simp only [h0, feeder_winner_of_ne (g 0) he0, h1,
          feeder_winner_of_ne (g 1) he1, hrec]

/-- The literal start-index sum equals the layout formula `2^R - 2^r`. -/
theorem calc_start_index_eq (R r : Nat) (h : r ≤ R) :
    calc_start_index R r = 2 ^ R - 2 ^ r := by
  unfold calc_start_index
  obtain ⟨d, rfl⟩ : ∃ d, R = r + d := ⟨R - r, by omega⟩
  clear h
  induction d generalizing r with
  | zero => simp
  | succ d ih =>
    rw [show r + (d + 1) - r = d + 1 by omega, List.range'_succ, List.map_cons,
      List.sum_cons]
    have := ih (r + 1)
    rw [show r + 1 + d - (r + 1) = d by omega] at this
    rw [show r + 1 + d = r + (d + 1) by omega] at this
    rw [this]
    have h1 : 2 ^ (r + 1) ≤ 2 ^ (r + (d + 1)) := Nat.pow_le_pow_right (by omega) (by omega)
    have h2 : 2 ^ (r + 1) = 2 * 2 ^ r := by rw [pow_succ]; ring
    omega

/-- C4: for `1 ≤ r < R`, with the previous round's feeders all present at
indices `prev_start + k` (`prev_start = start_r - 2^r`, `k < 2^r`),
round-promotion populates matchup `start_r + j` (for `j < 2^(r-1)`) with the
winners — the higher-vote sides — of feeders `prev_start + 2j` and
`prev_start + 2j + 1`, where `start_r` (the code's running sum) equals
`2^R - 2^r`; and any tied feeder instead yields the equal-votes integrity
error. -/
theorem calculate_new_round_matchups_spec (matchups : Nat → Option FeederMatchup)
    (g : Nat → FeederMatchup) (R r : Nat) (hr : 1 ≤ r) (hR : r < R)
    (hlook : ∀ k, k < 2 ^ r →
      matchups (calc_start_index R r - 2 ^ r + k) = some (g k)) :
    calc_start_index R r = 2 ^ R - 2 ^ r ∧
    ((∀ k, k < 2 ^ r → (g k).animation_a_votes ≠ (g k).animation_b_votes) →
      calculate_new_round_matchups matchups R r =
        Except.ok ((List.range (2 ^ (r - 1))).map fun j =>
          (calc_start_index R r + j, higher_vote_side (g (2 * j)),
            higher_vote_side (g (2 * j + 1))))) ∧
    ((∃ k, k < 2 ^ r ∧ (g k).animation_a_votes = (g k).animation_b_votes) →
      calculate_new_round_matchups matchups R r =
        Except.error
          (CalculateNewRoundMatchupsError.DbIntegrityError "matchup has equal votes")) := by
  have hstart := calc_start_index_eq R r (by omega)
  have h2n : 2 * 2 ^ (r - 1) = 2 ^ r := by
    rw [← pow_succ']
    congr 1
    omega
  have hpow : 2 ^ (r + 1) ≤ 2 ^ R := Nat.pow_le_pow_right (by omega) (by omega)
  have hpow1 : 2 ^ (r + 1) = 2 * 2 ^ r := by rw [pow_succ]; ring
  have hnx : 2 ^ (r - 1) ≤ 2 ^ r := Nat.pow_le_pow_right (by omega) (by omega)
  have hxi : 2 ^ r ≤ calc_start_index R r := by omega
  have hbase : calc_start_index R r - 2 ^ r = calc_start_index R r - 2 ^ r := rfl
  refine ⟨hstart, ?_, ?_⟩
  · intro hne
    unfold calculate_new_round_matchups
    exact calc_loop_ok matchups (2 ^ (r - 1)) g (calc_start_index R r) (2 ^ r)
      hnx hxi (fun k hk => hlook k (by omega)) (fun k hk => hne k (by omega))
  · intro hex
    unfold calculate_new_round_matchups
    obtain ⟨k, hk, heq⟩ := hex
    exact calc_loop_equal_votes matchups (2 ^ (r - 1)) g (calc_start_index R r)
      (2 ^ r) hnx hxi (fun k' hk' => hlook k' (by omega)) ⟨k, by omega, heq⟩

/-- C4 (witness): promotion into round 2 of a three-round tournament with
the concrete feeders `feeders_ex` populates matchups 4 and 5 with the
higher-vote sides of feeders (0, 1) and (2, 3). -/
theorem calculate_new_round_matchups_spec_witness :
    calculate_new_round_matchups feeders_ex 3 2 =
      Except.ok ((List.range (2 ^ (2 - 1))).map fun j =>
        (calc_start_index 3 2 + j, higher_vote_side (feeders_fn_ex (2 * j)),
          higher_vote_side (feeders_fn_ex (2 * j + 1)))) :=
  (calculate_new_round_matchups_spec feeders_ex feeders_fn_ex 3 2 (by decide)
    (by decide) (by decide)).2.1 (by decide)

/-- The ceiling base-2 logarithm is `r` on the half-open block
`(2^(r-1), 2^r]`. -/
theorem clog2_block (r m : Nat) (hr : 1 ≤ r) (h1 : 2 ^ (r - 1) < m)
    (h2 : m ≤ 2 ^ r) : Nat.clog 2 m = r := by
  have hle : Nat.clog 2 m ≤ r := (Nat.le_pow_iff_clog_le (by norm_num)).mp h2
  have hgt : r - 1 < Nat.clog 2 m := (Nat.pow_lt_iff_lt_clog (by norm_num)).mp h1
  omega

/-- Characterization of a successful first-round loop: `fuel` matchups with
consecutive indices, all of round `rounds` with the round-`rounds`
duration. -/
theorem bracket_first_round_ok (seeds : List Nat) (sorted_submissions : List String)
    (round_lengths_secs : List Nat) (rounds : Nat) :
    ∀ (fuel i index : Nat) (l : List BracketMatchup),
    bracket_first_round seeds sorted_submissions round_lengths_secs rounds
      fuel i index = Except.ok l →
    l.length = fuel ∧ ∀ j, j < fuel →
      (l.getD j default).index = index + j ∧
      (l.getD j default).round = rounds ∧
      (l.getD j default).duration_secs = round_lengths_secs.getD (rounds - 1) 0 := by
  intro fuel
  induction fuel with
  | zero =>
    intro i index l h
    cases h
    exact ⟨rfl, fun j hj => absurd hj (by omega)⟩
  | succ fuel ih =>
    intro i index l h
    unfold bracket_first_round at h
    cases hs1 : seeds[i * 2]? with
    | none => simp only [hs1] at h; exact absurd h (by simp)
    | some seed1 =>
    cases hs2 : seeds[i * 2 + 1]? with
    | none => simp only [hs1, hs2] at h; exact absurd h (by simp)
    | some seed2 =>
    cases ha : sorted_submissions[seed1]? with
    | none => simp only [hs1, hs2, ha] at h; exact absurd h (by simp)
    | some a =>
    cases hb : sorted_submissions[seed2]? with
    | none => simp only [hs1, hs2, ha, hb] at h; exact absurd h (by simp)
    | some b =>
    cases hd : round_lengths_secs[rounds - 1]? with
    | none => simp only [hs1, hs2, ha, hb, hd] at h; exact absurd h (by simp)
    | some d =>
    cases hrest : bracket_first_round seeds sorted_submissions round_lengths_secs
        rounds fuel (i + 1) (index + 1) with
    | error e => simp only [hs1, hs2, ha, hb, hd, hrest] at h; exact absurd h (by simp)
    | ok rest =>
    simp only [hs1, hs2, ha, hb, hd, hrest, Except.ok.injEq] at h
    subst h
    obtain ⟨hlen, hall⟩ := ih (i + 1) (index + 1) rest hrest
    refine ⟨by simp [hlen], ?_⟩
    intro j hj
    cases j with
    | zero =>
      refine ⟨by simp, by simp, ?_⟩
      simp only [List.getD_cons_zero]
      rw [List.getD_eq_getElem?_getD, hd]
      rfl
    | succ j =>
      have := hall j (by omega)
      simp only [List.getD_cons_succ]
      exact ⟨by rw [this.1]; omega, this.2.1, this.2.2⟩

/-- Characterization of a successful placeholder loop: `count` placeholder
matchups of round `round` with consecutive indices and the round's
duration. -/
theorem bracket_placeholders_ok (round_lengths_secs : List Nat) (round : Nat) :
    ∀ (count index : Nat) (l : List BracketMatchup),
    bracket_placeholders round_lengths_secs round count index = Except.ok l →
    l.length = count ∧ ∀ j, j < count →
      (l.getD j default).index = index + j ∧
      (l.getD j default).round = round ∧
      (l.getD j default).duration_secs = round_lengths_secs.getD (round - 1) 0 := by
  intro count
  induction count with
  | zero =>
    intro index l h
    cases h
    exact ⟨rfl, fun j hj => absurd hj (by omega)⟩
  | succ count ih =>
    intro index l h
    unfold bracket_placeholders at h
    cases hd : round_lengths_secs[round - 1]? with
    | none => rw [hd] at h; exact absurd h (by simp)
    | some d =>
    rw [hd] at h
    cases hrest : bracket_placeholders round_lengths_secs round count (index + 1) with
    | error e => rw [hrest] at h; exact absurd h (by simp)
    | ok rest =>
    rw [hrest] at h
    cases h
    obtain ⟨hlen, hall⟩ := ih (index + 1) rest hrest
    refine ⟨by simp [hlen], ?_⟩
    intro j hj
    cases j with
    | zero =>
      refine ⟨by simp, by simp, ?_⟩
      simp only [List.getD_cons_zero]
      rw [List.getD_eq_getElem?_getD, hd]
      rfl
    | succ j =>
      have := hall j (by omega)
      simp only [List.getD_cons_succ]
      exact ⟨by rw [this.1]; omega, this.2.1, this.2.2⟩

/-- Characterization of the placeholder rounds `r, r-1, …, 1` emitted after
the first round: `2^r - 1` matchups with consecutive indices, the matchup at
offset `j` having round `clog 2 (2^r - j)` and the matching duration. -/
theorem bracket_rest_ok (round_lengths_secs : List Nat) :
    ∀ (r index : Nat) (l : List BracketMatchup),
    bracket_rest round_lengths_secs r index = Except.ok l →
    l.length = 2 ^ r - 1 ∧ ∀ j, j < 2 ^ r - 1 →
      (l.getD j default).index = index + j ∧
      (l.getD j default).round = Nat.clog 2 (2 ^ r - j) ∧
      (l.getD j default).duration_secs =
        round_lengths_secs.getD ((l.getD j default).round - 1) 0 := by
  intro r
  induction r with
  | zero =>
    intro index l h
    cases h
    exact ⟨rfl, fun j hj => absurd hj (by omega)⟩
  | succ r ih =>
    intro index l h
    unfold bracket_rest at h
    cases hblock : bracket_placeholders round_lengths_secs (r + 1) (2 ^ r) index with
    | error e => rw [hblock] at h; exact absurd h (by simp)
    | ok block =>
    rw [hblock] at h
    cases hrest : bracket_rest round_lengths_secs r (index + 2 ^ r) with
    | error e => rw [hrest] at h; exact absurd h (by simp)
    | ok rest =>
    rw [hrest] at h
    cases h
    obtain ⟨hblen, hball⟩ := bracket_placeholders_ok round_lengths_secs (r + 1)
      (2 ^ r) index block hblock
    obtain ⟨hrlen, hrall⟩ := ih (index + 2 ^ r) rest hrest
    have hpow : 1 ≤ 2 ^ r := Nat.one_le_two_pow
    have hpow2 : 2 ^ (r + 1) = 2 * 2 ^ r := by rw [pow_succ]; ring
    refine ⟨by rw [List.length_append, hblen, hrlen]; omega, ?_⟩
    intro j hj
    by_cases hjb : j < 2 ^ r
    · have hget : (block ++ rest).getD j default = block.getD j default :=
        List.getD_append block rest default j (by omega)
      rw [hget]
      obtain ⟨hi, hr, hd⟩ := hball j hjb
      have hclog : Nat.clog 2 (2 ^ (r + 1) - j) = r + 1 :=
        clog2_block (r + 1) (2 ^ (r + 1) - j) (by omega)
          (by simp only [Nat.add_sub_cancel]; omega) (by omega)
      exact ⟨hi, by rw [hr, hclog], by rw [hd, hr]⟩
    · have hget := List.getD_append_right block rest default j (by rw [hblen]; omega)
      rw [hblen] at hget
      rw [hget]
      obtain ⟨hi, hr, hd⟩ := hrall (j - 2 ^ r) (by omega)
      refine ⟨by rw [hi]; omega, ?_, hd⟩
      rw [hr]
      exact congrArg (Nat.clog 2) (by omega)

/-- C5: a successful bracket construction with `rounds = R ≥ 1` inserts
exactly `2^R - 1` matchup rows whose `index` fields form the dense range
`0 .. 2^R - 2`; the matchup at index `i` has
`round = clog 2 (2^R - i)` (so round `R` occupies the first `2^(R-1)`
indices and round 1 the last index), and its `duration_secs` is
`round_lengths_secs[round - 1]`. -/
theorem create_bracket_spec (R : Nat) (sorted_submissions : List String)
    (round_lengths_secs : List Nat) (ms : List BracketMatchup) (hR : 1 ≤ R)
    (h : create_bracket R sorted_submissions round_lengths_secs = Except.ok ms) :
    ms.length = 2 ^ R - 1 ∧
    (∀ i, i < ms.length → (ms.getD i default).index = i) ∧
    (∀ i, i < ms.length →
      (ms.getD i default).round = Nat.clog 2 (2 ^ R - i)) ∧
    (∀ i, i < ms.length →
      (ms.getD i default).duration_secs =
        round_lengths_secs.getD ((ms.getD i default).round - 1) 0) := by
  unfold create_bracket at h
  split at h
  · exact absurd h (by simp)
  · cases hseeds : generate_seeds R with
    | error e => simp only [hseeds] at h; exact absurd h (by simp)
    | ok seeds =>
    cases hfirst : bracket_first_round seeds sorted_submissions round_lengths_secs R
        (2 ^ R / 2) 0 0 with
    | error e => simp only [hseeds, hfirst] at h; exact absurd h (by simp)
    | ok first =>
    cases hrest : bracket_rest round_lengths_secs (R - 1) (2 ^ R / 2) with
    | error e => simp only [hseeds, hfirst, hrest] at h; exact absurd h (by simp)
    | ok rest =>
    simp only [hseeds, hfirst, hrest, Except.ok.injEq] at h
    subst h
    have hhalf : 2 ^ R / 2 = 2 ^ (R - 1) := by
      rw [show R = (R - 1) + 1 by omega, pow_succ]
      simp
    rw [hhalf] at hfirst hrest
    obtain ⟨hflen, hfall⟩ := bracket_first_round_ok seeds sorted_submissions
      round_lengths_secs R (2 ^ (R - 1)) 0 0 first hfirst
    obtain ⟨hrlen, hrall⟩ := bracket_rest_ok round_lengths_secs (R - 1)
      (2 ^ (R - 1)) rest hrest
    have hpow : 1 ≤ 2 ^ (R - 1) := Nat.one_le_two_pow
    have hpow2 : 2 ^ R = 2 * 2 ^ (R - 1) := by
      conv_lhs => rw [show R = (R - 1) + 1 by omega]
      rw [pow_succ]
      ring
    have hlen : (first ++ rest).length = 2 ^ R - 1 := by
      rw [List.length_append, hflen, hrlen]
      omega
    refine ⟨hlen, ?_, ?_, ?_⟩
    all_goals intro i hi
    all_goals rw [hlen] at hi
    · by_cases hib : i < 2 ^ (R - 1)
      · rw [List.getD_append first rest default i (by rw [hflen]; omega)]
        have := (hfall i hib).1
        omega
      · have hget := List.getD_append_right first rest default i (by rw [hflen]; omega)
        rw [hflen] at hget
        rw [hget]
        have := (hrall (i - 2 ^ (R - 1)) (by omega)).1
        omega
    · by_cases hib : i < 2 ^ (R - 1)
      · rw [List.getD_append first rest default i (by rw [hflen]; omega)]
        rw [(hfall i hib).2.1]
        exact (clog2_block R (2 ^ R - i) (by omega) (by omega) (by omega)).symm
      · have hget := List.getD_append_right first rest default i (by rw [hflen]; omega)
        rw [hflen] at hget
        rw [hget]
        rw [(hrall (i - 2 ^ (R - 1)) (by omega)).2.1]
        exact congrArg (Nat.clog 2) (by omega)
    · by_cases hib : i < 2 ^ (R - 1)
      · rw [List.getD_append first rest default i (by rw [hflen]; omega)]
        obtain ⟨_, hr, hd⟩ := hfall i hib
        rw [hd, hr]
      · have hget := List.getD_append_right first rest default i (by rw [hflen]; omega)
        rw [hflen] at hget
        rw [hget]
        exact (hrall (i - 2 ^ (R - 1)) (by omega)).2.2

/-- C5 (witness): the concrete two-round bracket built from four
submissions, checked at its final matchup (index 2, round 1, the 30-second
final). -/
theorem create_bracket_spec_witness :
    bracket_ms_ex.length = 2 ^ 2 - 1 ∧
    (bracket_ms_ex.getD 2 default).index = 2 ∧
    (bracket_ms_ex.getD 2 default).round = Nat.clog 2 (2 ^ 2 - 2) ∧
    (bracket_ms_ex.getD 2 default).duration_secs =
      ([30, 60] : List Nat).getD ((bracket_ms_ex.getD 2 default).round - 1) 0 := by
  have h := create_bracket_spec 2 ["a", "b", "c", "d"] [30, 60] bracket_ms_ex
    (by decide) (by decide)
  exact ⟨h.1, h.2.1 2 (by decide), h.2.2.1 2 (by decide), h.2.2.2 2 (by decide)⟩

end Gifdome


